import Mathlib

/-!
Verification development for the NIFTY rolling long-straddle driver
(`Nifty_Roll_Long_Strad_spot.py`).

The source program is shallowly embedded:
* prices are rationals (`ℚ`); the FUT price feed into the ATR builder is a
  `PyFloat`, a rational extended with a NaN point so that Python's
  `max`/`min`/arithmetic semantics on NaN are representable;
* every fallible external call (DB flag read, LTP fetch, VIX quote, option
  symbol resolution, order placement) is an `Option`-valued field of a
  per-tick environment `Env`; `none` means the call raised;
* the per-tick body of `main`'s loop becomes the function `tick`; the
  top-level `except` handler corresponds to a tick result with
  `errored = true`, which keeps the mutations performed before the raise;
* wall-clock instants are `Tm` records; minute buckets are absolute minute
  keys (`ℕ`), mirroring `now.replace(second=0, microsecond=0)`.
-/

/-- Configured strike step (`STRIKE_STEP`, default 50). -/
def STRIKE_STEP : ℤ := 50

/-- Configured entry/roll tolerance (`ENTRY_TOL`, default 4). -/
def ENTRY_TOL : ℚ := 4

/-- Configured per-leg quantity (`QTY_PER_LEG`, default 65). -/
def QTY_PER_LEG : ℚ := 65

/-- Configured profit target (`PROFIT_TARGET`, default 1500). -/
def PROFIT_TARGET : ℚ := 1500

/-- Configured stop loss (`STOP_LOSS`, default 1500). -/
def STOP_LOSS : ℚ := 1500

/-- Configured ATR period (`ATR_PERIOD`, default 14). -/
def ATR_PERIOD : ℕ := 14

/-- `round_to_strike(price) = int(math.floor(price / STRIKE_STEP + 0.5) * STRIKE_STEP)`. -/
def round_to_strike (price : ℚ) : ℤ :=
  ⌊price / (STRIKE_STEP : ℚ) + 1/2⌋ * STRIKE_STEP

/-- Outcome of the kill-switch query `SELECT {FLAG_COL} FROM {FLAG_TABLE} WHERE id=1`.
`err` models the whole `try` body raising; `noRow` models `fetchone()` returning
`None`; `rowMissingCol` models a row dict without `FLAG_COL`; `rowVal v` models a
row carrying the flag column, `none` being SQL NULL. -/
inductive FlagRead where
  | err : FlagRead
  | noRow : FlagRead
  | rowMissingCol : FlagRead
  | rowVal : Option Bool → FlagRead
deriving DecidableEq

/-- `read_trade_flag`: `bool(r[FLAG_COL]) if r and (FLAG_COL in r) else False`,
with `return False` on any exception (fail-safe). `bool(None) = False`. -/
def read_trade_flag : FlagRead → Bool
  | .err => false
  | .noRow => false
  | .rowMissingCol => false
  | .rowVal v => v.getD false

/-- A Python float as handled by the ATR builder: either NaN or a finite value. -/
inductive PyFloat where
  | nan : PyFloat
  | fin : ℚ → PyFloat
deriving DecidableEq

namespace PyFloat

/-- Python `<` on floats: any comparison against NaN is `False`. -/
def blt : PyFloat → PyFloat → Bool
  | .fin a, .fin b => decide (a < b)
  | _, _ => false

/-- Python `max(a, b)`: starts with `a`, replaces it only when `b > a`. -/
def pymax (a b : PyFloat) : PyFloat := if blt a b then b else a

/-- Python `min(a, b)`: starts with `a`, replaces it only when `b < a`. -/
def pymin (a b : PyFloat) : PyFloat := if blt b a then b else a

/-- Python float subtraction: NaN-propagating. -/
def sub : PyFloat → PyFloat → PyFloat
  | .fin a, .fin b => .fin (a - b)
  | _, _ => .nan

/-- Python float addition: NaN-propagating. -/
def add : PyFloat → PyFloat → PyFloat
  | .fin a, .fin b => .fin (a + b)
  | _, _ => .nan

/-- Python `abs`: NaN-propagating. -/
def pabs : PyFloat → PyFloat
  | .fin a => .fin |a|
  | .nan => .nan

/-- Python float division (denominators used here are nonzero): NaN-propagating. -/
def div : PyFloat → PyFloat → PyFloat
  | .fin a, .fin b => .fin (a / b)
  | _, _ => .nan

/-- Python `sum(list)`: left fold of `+` starting from `0`. -/
def sum (l : List PyFloat) : PyFloat := l.foldl add (.fin 0)

end PyFloat

/-- Idealized `round(q, 2)`: round `q` to two decimal places. -/
def round2 (q : ℚ) : ℚ := (round (q * 100) : ℤ) / 100

/-- `round(x, 2)` on a Python float: NaN stays NaN. -/
def PyFloat.round2dp : PyFloat → PyFloat
  | .fin q => .fin (round2 q)
  | .nan => .nan

/-- `self.trs[-n:]` — the last `n` elements of a list. -/
def lastN (n : ℕ) (l : List PyFloat) : List PyFloat := l.drop (l.length - n)

/-- The current minute bucket of `FutAtrBuilder`. In the source,
`last_min`, `h`, `l`, `c`, `prev_c` are all `None` exactly until the first
sample seeds them together, so they are bundled under one `Option`. -/
structure AtrBucket where
  last_min : ℕ
  h : PyFloat
  l : PyFloat
  c : PyFloat
  prev_c : PyFloat
deriving DecidableEq

/-- State of `FutAtrBuilder`. -/
structure AtrSt where
  period : ℕ
  trs : List PyFloat
  bucket : Option AtrBucket
  atr : Option PyFloat
deriving DecidableEq

/-- `FutAtrBuilder.__init__(period)`. -/
def AtrSt.init (period : ℕ) : AtrSt :=
  { period := period, trs := [], bucket := none, atr := none }

/-- `FutAtrBuilder.update(now, fut_ltp)`: returns the new state together with
the returned ATR value. `mk` is the minute key of `now`. -/
def AtrSt.update (st : AtrSt) (mk : ℕ) (p : PyFloat) : AtrSt × Option PyFloat :=
  match st.bucket with
  | none =>
    ({ st with bucket := some ⟨mk, p, p, p, p⟩ }, none)
  | some b =>
    if mk = b.last_min then
      ({ st with bucket := some ⟨b.last_min, PyFloat.pymax b.h p, PyFloat.pymin b.l p, p, b.prev_c⟩ },
       st.atr)
    else
      let tr := PyFloat.pymax (PyFloat.pymax (PyFloat.sub b.h b.l)
        (PyFloat.pabs (PyFloat.sub b.h b.prev_c))) (PyFloat.pabs (PyFloat.sub b.l b.prev_c))
      let trs := st.trs ++ [tr]
      let atr :=
        if st.period ≤ trs.length then
          some (PyFloat.round2dp (PyFloat.div (PyFloat.sum (lastN st.period trs)) (.fin st.period)))
        else st.atr
      ({ st with trs := trs, bucket := some ⟨mk, p, p, p, b.c⟩, atr := atr }, atr)

/-- Feed a list of `(minute key, price)` samples through the builder. -/
def AtrSt.applyAll (st : AtrSt) (ups : List (ℕ × PyFloat)) : AtrSt :=
  ups.foldl (fun s u => (s.update u.1 u.2).1) st

/-- A wall-clock instant (timezone-fixed), at second resolution. -/
structure Tm where
  day : ℕ
  hour : ℕ
  minute : ℕ
  second : ℕ
deriving DecidableEq

/-- `now.replace(second=0, microsecond=0)` as an absolute minute key. -/
def minuteKey (t : Tm) : ℕ := (t.day * 24 + t.hour) * 60 + t.minute

/-- Time of day in seconds. -/
def todSec (t : Tm) : ℕ := (t.hour * 60 + t.minute) * 60 + t.second

/-- `MARKET_START_TIME` (default "09:15") in seconds of day. -/
def MARKET_START_SEC : ℕ := 9 * 3600 + 15 * 60

/-- `MARKET_END_TIME` (default "15:30") in seconds of day. -/
def MARKET_END_SEC : ℕ := 15 * 3600 + 30 * 60

/-- `in_market_hours(now)`: `MARKET_START_TIME <= now.time() <= MARKET_END_TIME`. -/
def in_market_hours (t : Tm) : Bool :=
  decide (MARKET_START_SEC ≤ todSec t) && decide (todSec t ≤ MARKET_END_SEC)

/-- The `event` column of the rows `main` writes. -/
inductive EvKind where
  | entry : EvKind
  | snapshot : EvKind
  | rollExit : EvKind
  | rollEntry : EvKind
  | finalExit : EvKind
  | killSwitchExit : EvKind
deriving DecidableEq

/-- A logged row, reduced to the event kind and the minute key of its timestamp. -/
structure Ev where
  kind : EvKind
  emin : ℕ
deriving DecidableEq

/-- The mutable state owned by `main`'s loop (the ATR builder included). -/
structure St where
  position_open : Bool
  active_atm : Option ℤ
  ce_symbol : Option String
  pe_symbol : Option String
  ce_entry : Option ℚ
  pe_entry : Option ℚ
  realized_pnl : ℚ
  last_snapshot_min : Option ℕ
  last_flag_min : Option ℕ
  trade_allowed : Bool
  atrSt : AtrSt
deriving DecidableEq

/-- The state at loop start: position fields `None`, `realized_pnl = 0.0`,
`trade_allowed = False`, fresh `FutAtrBuilder(ATR_PERIOD)`. -/
def initState : St :=
  { position_open := false, active_atm := none, ce_symbol := none,
    pe_symbol := none, ce_entry := none, pe_entry := none, realized_pnl := 0,
    last_snapshot_min := none, last_flag_min := none, trade_allowed := false,
    atrSt := AtrSt.init ATR_PERIOD }

/-- One tick's external world: the wall clock plus the outcome of each
potentially-raising external call, in program order. A `none` means the call
raised an exception at that site. -/
structure Env where
  now : Tm
  flagRead : FlagRead
  spotPx : Option ℚ
  futPx : Option ℚ
  vixQ : Option (ℚ × ℚ)
  killCeExit : Option ℚ
  killPeExit : Option ℚ
  killSellCe : Option Unit
  killSellPe : Option Unit
  entResCe : Option String
  entResPe : Option String
  entCePx : Option ℚ
  entPePx : Option ℚ
  entBuyCe : Option Unit
  entBuyPe : Option Unit
  mgCePx : Option ℚ
  mgPePx : Option ℚ
  rlCeExit : Option ℚ
  rlPeExit : Option ℚ
  rlSellCe : Option Unit
  rlSellPe : Option Unit
  rlResCe : Option String
  rlResPe : Option String
  rlCePx : Option ℚ
  rlPePx : Option ℚ
  rlBuyCe : Option Unit
  rlBuyPe : Option Unit
  feCeExit : Option ℚ
  fePeExit : Option ℚ
  feSellCe : Option Unit
  feSellPe : Option Unit
deriving DecidableEq

/-- Result of one pass of the loop body: the state afterwards, the rows logged,
and whether the pass ended in the top-level `except` handler. -/
structure TickRes where
  st : St
  evs : List Ev
  errored : Bool
deriving DecidableEq

/-- `last_flag_min is None or this_min > last_flag_min`. -/
def flagDue (last : Option ℕ) (thisMin : ℕ) : Bool :=
  match last with
  | none => true
  | some m => decide (thisMin > m)

/-- The per-minute kill-switch cache refresh at the top of the tick. -/
def refreshFlag (env : Env) (s : St) : St :=
  if flagDue s.last_flag_min (minuteKey env.now) then
    { s with last_flag_min := some (minuteKey env.now),
             trade_allowed := read_trade_flag env.flagRead }
  else s

/-- The value `trade_allowed` holds for the rest of the tick. -/
def effAllowed (env : Env) (s : St) : Bool :=
  if flagDue s.last_flag_min (minuteKey env.now) then read_trade_flag env.flagRead
  else s.trade_allowed

/-- The `KILL SWITCH` block (`position_open and not trade_allowed`). -/
def killBranch (live : Bool) (env : Env) (s : St) : TickRes :=
  match s.ce_symbol with
  | none => ⟨s, [], true⟩
  | some _ =>
  match env.killCeExit with
  | none => ⟨s, [], true⟩
  | some ce_exit =>
  match s.pe_symbol with
  | none => ⟨s, [], true⟩
  | some _ =>
  match env.killPeExit with
  | none => ⟨s, [], true⟩
  | some pe_exit =>
  match (if live then env.killSellCe else some ()) with
  | none => ⟨s, [], true⟩
  | some _ =>
  match (if live then env.killSellPe else some ()) with
  | none => ⟨s, [], true⟩
  | some _ =>
  match s.ce_entry with
  | none => ⟨s, [], true⟩
  | some ce_entry =>
  match s.pe_entry with
  | none => ⟨s, [], true⟩
  | some pe_entry =>
    let pnl := (ce_exit - ce_entry + pe_exit - pe_entry) * QTY_PER_LEG
    ⟨{ s with
         realized_pnl := s.realized_pnl + pnl, position_open := false,
         active_atm := none, ce_symbol := none, pe_symbol := none,
         ce_entry := none, pe_entry := none, last_snapshot_min := none },
     [⟨.killSwitchExit, minuteKey env.now⟩], false⟩

/-- The `ENTRY` block. `.inl r` means the tick ended (exception mid-entry);
`.inr (s, evs)` means control falls through to position management. -/
def entryStep (live : Bool) (env : Env) (s : St) (atm : ℤ) (dist : ℚ) :
    TickRes ⊕ (St × List Ev) :=
  if s.trade_allowed && !s.position_open && decide (dist ≤ ENTRY_TOL) then
    match env.entResCe with
    | none => .inl ⟨s, [], true⟩
    | some ceSym =>
      let s := { s with ce_symbol := some ceSym }
      match env.entResPe with
      | none => .inl ⟨s, [], true⟩
      | some peSym =>
        let s := { s with pe_symbol := some peSym }
        match env.entCePx with
        | none => .inl ⟨s, [], true⟩
        | some cePx =>
          let s := { s with ce_entry := some cePx }
          match env.entPePx with
          | none => .inl ⟨s, [], true⟩
          | some pePx =>
            let s := { s with pe_entry := some pePx }
            match (if live then env.entBuyCe else some ()) with
            | none => .inl ⟨s, [], true⟩
            | some _ =>
            match (if live then env.entBuyPe else some ()) with
            | none => .inl ⟨s, [], true⟩
            | some _ =>
              .inr ({ s with
                        position_open := true, active_atm := some atm,
                        last_snapshot_min := none },
                    [⟨.entry, minuteKey env.now⟩])
  else .inr (s, [])

/-- The `ATM ROLL` block: exit both legs, realize the roll PnL, log `ROLL_EXIT`,
then resolve and enter the new legs and log `ROLL_ENTRY`. Any raise ends the
tick keeping the mutations already made (the source has no rollback). -/
def rollStep (live : Bool) (env : Env) (s : St) (new_atm : ℤ)
    (ce_entry pe_entry : ℚ) (evs : List Ev) : TickRes :=
  match env.rlCeExit with
  | none => ⟨s, evs, true⟩
  | some ce_exit =>
  match env.rlPeExit with
  | none => ⟨s, evs, true⟩
  | some pe_exit =>
  match (if live then env.rlSellCe else some ()) with
  | none => ⟨s, evs, true⟩
  | some _ =>
  match (if live then env.rlSellPe else some ()) with
  | none => ⟨s, evs, true⟩
  | some _ =>
    let roll_pnl := (ce_exit - ce_entry + pe_exit - pe_entry) * QTY_PER_LEG
    let s := { s with realized_pnl := s.realized_pnl + roll_pnl }
    let evs := evs ++ [⟨.rollExit, minuteKey env.now⟩]
    match env.rlResCe with
    | none => ⟨s, evs, true⟩
    | some ceSym =>
      let s := { s with ce_symbol := some ceSym }
      match env.rlResPe with
      | none => ⟨s, evs, true⟩
      | some peSym =>
        let s := { s with pe_symbol := some peSym }
        match env.rlCePx with
        | none => ⟨s, evs, true⟩
        | some cePx =>
          let s := { s with ce_entry := some cePx }
          match env.rlPePx with
          | none => ⟨s, evs, true⟩
          | some pePx =>
            let s := { s with pe_entry := some pePx }
            match (if live then env.rlBuyCe else some ()) with
            | none => ⟨s, evs, true⟩
            | some _ =>
            match (if live then env.rlBuyPe else some ()) with
            | none => ⟨s, evs, true⟩
            | some _ =>
              ⟨{ s with active_atm := some new_atm, last_snapshot_min := none },
               evs ++ [⟨.rollEntry, minuteKey env.now⟩], false⟩

/-- The `FINAL EXIT ON TARGET / SL` block. -/
def finalStep (live : Bool) (env : Env) (s : St) (unreal : ℚ) (evs : List Ev) : TickRes :=
  match env.feCeExit with
  | none => ⟨s, evs, true⟩
  | some _ =>
  match env.fePeExit with
  | none => ⟨s, evs, true⟩
  | some _ =>
  match (if live then env.feSellCe else some ()) with
  | none => ⟨s, evs, true⟩
  | some _ =>
  match (if live then env.feSellPe else some ()) with
  | none => ⟨s, evs, true⟩
  | some _ =>
    ⟨{ s with
         realized_pnl := s.realized_pnl + unreal, position_open := false,
         active_atm := none, ce_symbol := none, pe_symbol := none,
         ce_entry := none, pe_entry := none, last_snapshot_min := none },
     evs ++ [⟨.finalExit, minuteKey env.now⟩], false⟩

/-- The `POSITION MANAGEMENT` block: M2M snapshot dedup, then ROLL, then
FINAL EXIT, in that order. -/
def manage (live : Bool) (env : Env) (s : St) (spot : ℚ) (evs : List Ev) : TickRes :=
  if s.position_open then
    match s.ce_symbol with
    | none => ⟨s, evs, true⟩
    | some _ =>
    match env.mgCePx with
    | none => ⟨s, evs, true⟩
    | some ce_ltp =>
    match s.pe_symbol with
    | none => ⟨s, evs, true⟩
    | some _ =>
    match env.mgPePx with
    | none => ⟨s, evs, true⟩
    | some pe_ltp =>
    match s.ce_entry with
    | none => ⟨s, evs, true⟩
    | some ce_entry =>
    match s.pe_entry with
    | none => ⟨s, evs, true⟩
    | some pe_entry =>
      let unreal := (ce_ltp - ce_entry + pe_ltp - pe_entry) * QTY_PER_LEG
      let snap_min := minuteKey env.now
      let fire := flagDue s.last_snapshot_min snap_min
      let s1 := if fire then { s with last_snapshot_min := some snap_min } else s
      let evs1 := if fire then evs ++ [⟨.snapshot, snap_min⟩] else evs
      let new_atm := round_to_strike spot
      if s1.trade_allowed && decide (some new_atm ≠ s1.active_atm)
          && decide (|spot - (new_atm : ℚ)| ≤ ENTRY_TOL) then
        rollStep live env s1 new_atm ce_entry pe_entry evs1
      else if decide (unreal ≥ PROFIT_TARGET) || decide (unreal ≤ -STOP_LOSS) then
        finalStep live env s1 unreal evs1
      else ⟨s1, evs1, false⟩
  else ⟨s, evs, false⟩

/-- One pass of the `while True` loop body of `main`. -/
def tick (live : Bool) (env : Env) (s : St) : TickRes :=
  if in_market_hours env.now then
    let s1 := refreshFlag env s
    match env.spotPx with
    | none => ⟨s1, [], true⟩
    | some spot =>
      match env.futPx with
      | none => ⟨s1, [], true⟩
      | some fut =>
        let s2 := { s1 with atrSt := (s1.atrSt.update (minuteKey env.now) (.fin fut)).1 }
        match env.vixQ with
        | none => ⟨s2, [], true⟩
        | some _ =>
          let atm := round_to_strike spot
          let dist := |spot - (atm : ℚ)|
          if s2.position_open && !s2.trade_allowed then
            killBranch live env s2
          else
            match entryStep live env s2 atm dist with
            | .inl r => r
            | .inr (s3, evs) => manage live env s3 spot evs
  else ⟨s, [], false⟩

/-- Run the loop over a list of per-tick environments, collecting all rows. -/
def run (live : Bool) : St → List Env → St × List Ev
  | s, [] => (s, [])
  | s, e :: es =>
    let r := tick live e s
    let rest := run live r.st es
    (rest.1, r.evs ++ rest.2)

/-- The §3 `StraddlePosition` invariant: all position fields populated and the
position open, or all `None` and the position flat. -/
def stAllOrNone (s : St) : Prop :=
  (s.position_open = true ∧ s.active_atm.isSome = true ∧ s.ce_symbol.isSome = true
    ∧ s.pe_symbol.isSome = true ∧ s.ce_entry.isSome = true ∧ s.pe_entry.isSome = true)
  ∨ (s.position_open = false ∧ s.active_atm = none ∧ s.ce_symbol = none
    ∧ s.pe_symbol = none ∧ s.ce_entry = none ∧ s.pe_entry = none)

instance : DecidablePred stAllOrNone := fun s => by
  unfold stAllOrNone; infer_instance

/-- A tick environment in which no external call raises. -/
def envOk (e : Env) : Prop :=
  e.spotPx.isSome = true ∧ e.futPx.isSome = true ∧ e.vixQ.isSome = true
  ∧ e.killCeExit.isSome = true ∧ e.killPeExit.isSome = true
  ∧ e.killSellCe.isSome = true ∧ e.killSellPe.isSome = true
  ∧ e.entResCe.isSome = true ∧ e.entResPe.isSome = true
  ∧ e.entCePx.isSome = true ∧ e.entPePx.isSome = true
  ∧ e.entBuyCe.isSome = true ∧ e.entBuyPe.isSome = true
  ∧ e.mgCePx.isSome = true ∧ e.mgPePx.isSome = true
  ∧ e.rlCeExit.isSome = true ∧ e.rlPeExit.isSome = true
  ∧ e.rlSellCe.isSome = true ∧ e.rlSellPe.isSome = true
  ∧ e.rlResCe.isSome = true ∧ e.rlResPe.isSome = true
  ∧ e.rlCePx.isSome = true ∧ e.rlPePx.isSome = true
  ∧ e.rlBuyCe.isSome = true ∧ e.rlBuyPe.isSome = true
  ∧ e.feCeExit.isSome = true ∧ e.fePeExit.isSome = true
  ∧ e.feSellCe.isSome = true ∧ e.feSellPe.isSome = true

instance : DecidablePred envOk := fun e => by
  unfold envOk; infer_instance

/-- Any event kind occurring among a tick's logged rows. -/
def hasKind (r : TickRes) (k : EvKind) : Bool :=
  r.evs.any (fun e => e.kind == k)

/-! ### Helper lemmas -/

theorem refreshFlag_position_open (env : Env) (s : St) :
    (refreshFlag env s).position_open = s.position_open := by
  unfold refreshFlag; split <;> rfl

theorem refreshFlag_active_atm (env : Env) (s : St) :
    (refreshFlag env s).active_atm = s.active_atm := by
  unfold refreshFlag; split <;> rfl

theorem refreshFlag_ce_symbol (env : Env) (s : St) :
    (refreshFlag env s).ce_symbol = s.ce_symbol := by
  unfold refreshFlag; split <;> rfl

theorem refreshFlag_pe_symbol (env : Env) (s : St) :
    (refreshFlag env s).pe_symbol = s.pe_symbol := by
  unfold refreshFlag; split <;> rfl

theorem refreshFlag_ce_entry (env : Env) (s : St) :
    (refreshFlag env s).ce_entry = s.ce_entry := by
  unfold refreshFlag; split <;> rfl

theorem refreshFlag_pe_entry (env : Env) (s : St) :
    (refreshFlag env s).pe_entry = s.pe_entry := by
  unfold refreshFlag; split <;> rfl

theorem refreshFlag_realized_pnl (env : Env) (s : St) :
    (refreshFlag env s).realized_pnl = s.realized_pnl := by
  unfold refreshFlag; split <;> rfl

theorem refreshFlag_last_snapshot_min (env : Env) (s : St) :
    (refreshFlag env s).last_snapshot_min = s.last_snapshot_min := by
  unfold refreshFlag; split <;> rfl

theorem refreshFlag_atrSt (env : Env) (s : St) :
    (refreshFlag env s).atrSt = s.atrSt := by
  unfold refreshFlag; split <;> rfl

theorem refreshFlag_trade_allowed (env : Env) (s : St) :
    (refreshFlag env s).trade_allowed = effAllowed env s := by
  unfold refreshFlag effAllowed; split <;> rfl

theorem pymax_fin (a b : ℚ) : PyFloat.pymax (.fin a) (.fin b) = .fin (max a b) := by
  simp only [PyFloat.pymax, PyFloat.blt]
  rcases lt_or_ge a b with h | h
  · simp [h, max_eq_right h.le]
  · simp [not_lt.mpr h, max_eq_left h]

theorem pymax_nan_right (x : PyFloat) : PyFloat.pymax x .nan = x := by
  cases x <;> rfl

theorem pymin_nan_right (x : PyFloat) : PyFloat.pymin x .nan = x := by
  cases x <;> rfl

/-! ### Claim C8 -/

/-- Claim C8: `round_to_strike` computes `floor(spot/step + 0.5) * step`
(round-half-up, and it is so defined above); it is idempotent, and
`|round_to_strike(spot) - spot| <= step/2` for all spot (step = 50). -/
theorem c8_round_to_strike :
    (∀ p : ℚ, round_to_strike ((round_to_strike p : ℤ) : ℚ) = round_to_strike p)
    ∧ ∀ p : ℚ, |((round_to_strike p : ℤ) : ℚ) - p| ≤ (STRIKE_STEP : ℚ) / 2 := by
  have hfl : ∀ k : ℤ, ⌊(k : ℚ) + 1/2⌋ = k := by
    intro k
    have : ⌊(k : ℚ) + 1/2⌋ = k + ⌊(1/2 : ℚ)⌋ := Int.floor_int_add k (1/2)
    rw [this, show ⌊(1/2 : ℚ)⌋ = 0 from Int.floor_eq_zero_iff.mpr (by constructor <;> norm_num)]
    ring
  constructor
  · intro p
    unfold round_to_strike STRIKE_STEP
    push_cast
    rw [mul_div_assoc]
    norm_num [hfl]
  · intro p
    unfold round_to_strike STRIKE_STEP
    set k := ⌊p / (50 : ℚ) + 1/2⌋ with hk
    have h1 : (k : ℚ) ≤ p / 50 + 1/2 := Int.floor_le _
    have h2 : p / 50 + 1/2 < (k : ℚ) + 1 := Int.lt_floor_add_one _
    have hp : p / (50 : ℚ) * 50 = p := div_mul_cancel₀ p (by norm_num)
    have h1' : (k : ℚ) * 50 ≤ p + 25 := by
      have := mul_le_mul_of_nonneg_right h1 (by norm_num : (0:ℚ) ≤ 50)
      calc (k : ℚ) * 50 ≤ (p / 50 + 1/2) * 50 := this
        _ = p / 50 * 50 + 25 := by ring
        _ = p + 25 := by rw [hp]
    have h2' : p + 25 < (k : ℚ) * 50 + 50 := by
      have := mul_lt_mul_of_pos_right h2 (by norm_num : (0:ℚ) < 50)
      calc p + 25 = p / 50 * 50 + 25 := by rw [hp]
        _ = (p / 50 + 1/2) * 50 := by ring
        _ < ((k : ℚ) + 1) * 50 := this
        _ = (k : ℚ) * 50 + 50 := by ring
    rw [abs_le]
    push_cast
    constructor <;> nlinarith [h1', h2']

/-! ### Claim C10 -/

/-- Claim C10: `read_trade_flag` returns false when the query raises, when no
row with id=1 comes back, when the row lacks the flag column, and when the
stored value is NULL or falsy; the only outcome yielding true is an explicit
true flag value. -/
theorem c10_flag_defaults :
    read_trade_flag .err = false
    ∧ read_trade_flag .noRow = false
    ∧ read_trade_flag .rowMissingCol = false
    ∧ read_trade_flag (.rowVal none) = false
    ∧ read_trade_flag (.rowVal (some false)) = false
    ∧ ∀ o : FlagRead, read_trade_flag o = true ↔ o = .rowVal (some true) := by
  refine ⟨rfl, rfl, rfl, rfl, rfl, ?_⟩
  intro o
  cases o with
  | err => simp [read_trade_flag]
  | noRow => simp [read_trade_flag]
  | rowMissingCol => simp [read_trade_flag]
  | rowVal v =>
    cases v with
    | none => simp [read_trade_flag]
    | some b => cases b <;> simp [read_trade_flag]

/-! ### Concrete fixtures -/

/-- An open position at strike 22500 (entry prices 100/80), snapshot and flag
caches at minute key 600 (= day 0, 10:00), trading allowed. -/
def sOpen0 : St :=
  { position_open := true, active_atm := some 22500,
    ce_symbol := some "NFO:NIFTY24C22500", pe_symbol := some "NFO:NIFTY24P22500",
    ce_entry := some 100, pe_entry := some 80, realized_pnl := 0,
    last_snapshot_min := some 600, last_flag_min := some 600, trade_allowed := true,
    atrSt := AtrSt.init 14 }

/-- A tick environment at 10:00:00 in which every external call succeeds. -/
def envAllOk : Env :=
  { now := ⟨0, 10, 0, 0⟩, flagRead := .rowVal (some true),
    spotPx := some 22498, futPx := some 22500, vixQ := some (12, 13),
    killCeExit := some 100, killPeExit := some 80, killSellCe := some (), killSellPe := some (),
    entResCe := some "NFO:NIFTY24C22500", entResPe := some "NFO:NIFTY24P22500",
    entCePx := some 100, entPePx := some 80, entBuyCe := some (), entBuyPe := some (),
    mgCePx := some 100, mgPePx := some 80,
    rlCeExit := some 100, rlPeExit := some 80, rlSellCe := some (), rlSellPe := some (),
    rlResCe := some "NFO:NIFTY24C22550", rlResPe := some "NFO:NIFTY24P22550",
    rlCePx := some 95, rlPePx := some 85, rlBuyCe := some (), rlBuyPe := some (),
    feCeExit := some 100, fePeExit := some 80, feSellCe := some (), feSellPe := some () }

/-- A tick environment at 15:31:00, one minute past the market end time. -/
def envLate : Env := { envAllOk with now := ⟨0, 15, 31, 0⟩ }

/-! ### Claim C2 -/

/-- Counterexample to claim C2: at a tick whose wall clock is past the forced
square-off time (15:31 > 15:30) with the position OPEN, no TIME_EXIT fires —
the tick is skipped entirely, logs nothing, and leaves the position OPEN. -/
theorem c2_cex :
    MARKET_END_SEC < todSec envLate.now
    ∧ sOpen0.position_open = true
    ∧ (tick false envLate sOpen0).evs = []
    ∧ (tick false envLate sOpen0).st = sOpen0 := by
  refine ⟨by decide, rfl, ?_, ?_⟩ <;> decide

/-- Claim C2 as amended: there is no TIME_EXIT transition. Whenever the wall
clock is outside market hours (in particular strictly after the 15:30 end
time), the loop body returns without reading data, firing any transition or
logging anything: the state — an OPEN position included — is left unchanged. -/
theorem c2_out_of_hours_skip (live : Bool) (env : Env) (s : St)
    (h : in_market_hours env.now = false) : tick live env s = ⟨s, [], false⟩ := by
  simp [tick, h]

/-- Witness for the amended claim C2 at a concrete input. -/
theorem c2_out_of_hours_skip_w :
    in_market_hours envLate.now = false ∧ tick false envLate sOpen0 = ⟨sOpen0, [], false⟩ :=
  ⟨by decide, c2_out_of_hours_skip false envLate sOpen0 (by decide)⟩

/-! ### Claim C7 -/

/-- A warm ATR-builder state whose bucket (minute 600) is seeded at 100. -/
def atrNanSt : AtrSt :=
  { period := 14, trs := [],
    bucket := some ⟨600, .fin 100, .fin 100, .fin 100, .fin 100⟩, atr := none }

/-- Counterexample to claim C7: `FutAtrBuilder.update` has no NaN guard. On a
NaN sample in the current minute the state is NOT unchanged: the bucket close
is overwritten with NaN. -/
theorem c7_cex :
    (atrNanSt.update 600 PyFloat.nan).1 ≠ atrNanSt
    ∧ (atrNanSt.update 600 PyFloat.nan).1.bucket
        = some ⟨600, .fin 100, .fin 100, .nan, .fin 100⟩ := by
  constructor <;> decide

/-- Claim C7 as amended: `update` itself performs no missing/NaN check. On a
NaN sample within the current minute it does return the previously known ATR
and leaves `period`, `trs`, `atr`, `last_min`, `h`, `l`, `prev_c` unchanged,
but it overwrites the bucket close with NaN (Python `max`/`min` keep the old
`h`/`l` because comparisons against NaN are false). A missing sample never
reaches `update` in the program: the FUT price fetch raises first and the tick
aborts with the builder state untouched. -/
theorem c7_nan_semantics :
    (∀ (st : AtrSt) (b : AtrBucket), st.bucket = some b →
      st.update b.last_min .nan
        = ({ st with bucket := some ⟨b.last_min, b.h, b.l, .nan, b.prev_c⟩ }, st.atr))
    ∧ ∀ (live : Bool) (env : Env) (s : St), env.futPx = none →
        (tick live env s).st.atrSt = s.atrSt := by
  constructor
  · intro st b hb
    unfold AtrSt.update
    rw [hb]
    simp [pymax_nan_right, pymin_nan_right]
  · intro live env s hf
    cases hm : in_market_hours env.now with
    | false => simp [tick, hm]
    | true =>
      cases hsp : env.spotPx with
      | none => simp [tick, hm, hsp, refreshFlag_atrSt]
      | some spot => simp [tick, hm, hsp, hf, refreshFlag_atrSt]

/-- Witness for the amended claim C7 at concrete inputs. -/
theorem c7_nan_semantics_w :
    atrNanSt.update 600 PyFloat.nan
      = ({ atrNanSt with bucket := some ⟨600, .fin 100, .fin 100, .nan, .fin 100⟩ }, none)
    ∧ (tick false { envAllOk with futPx := none } sOpen0).st.atrSt = sOpen0.atrSt := by
  constructor
  · exact c7_nan_semantics.1 atrNanSt ⟨600, .fin 100, .fin 100, .fin 100, .fin 100⟩ rfl
  · exact c7_nan_semantics.2 false { envAllOk with futPx := none } sOpen0 rfl

/-! ### Claim C1 -/

/-- A roll tick at 10:00:20 (spot 22547, so the candidate strike moves from
22500 to 22550) whose old legs exit at 130/90 but whose new-CE symbol
resolution raises. -/
def envC1 : Env :=
  { envAllOk with
      now := ⟨0, 10, 0, 20⟩, spotPx := some 22547,
      rlCeExit := some 130, rlPeExit := some 90, rlResCe := none }

/-- Claim C1 is the stated intent, but the code violates it: when symbol
resolution fails after the old legs were already closed during a ROLL
(ROLL_EXIT logged, realized PnL updated by (130-100+90-80)*65 = 2600), the
position is NOT forced to FLAT — the tick ends in the generic exception
handler with `position_open` still true, the closed legs' symbols still
recorded, the old strike still active, and no error event among the logged
rows: a phantom OPEN position against closed legs. -/
theorem c1_roll_phantom :
    (tick false envC1 sOpen0).st.position_open = true
    ∧ (tick false envC1 sOpen0).st.ce_symbol = sOpen0.ce_symbol
    ∧ (tick false envC1 sOpen0).st.pe_symbol = sOpen0.pe_symbol
    ∧ (tick false envC1 sOpen0).st.active_atm = some 22500
    ∧ (tick false envC1 sOpen0).st.realized_pnl = sOpen0.realized_pnl + 2600
    ∧ (tick false envC1 sOpen0).evs = [⟨.rollExit, 600⟩]
    ∧ (tick false envC1 sOpen0).errored = true := by
  refine ⟨?_, ?_, ?_, ?_, ?_, ?_, ?_⟩ <;> with_unfolding_all rfl

/-! ### Claim C6 -/

theorem atr_update_step (s : AtrSt) (mk : ℕ) (p : PyFloat)
    (h : s.trs.length < s.period → s.atr = none) :
    (s.update mk p).1.period = s.period
    ∧ ((s.update mk p).1.trs.length < s.period → (s.update mk p).1.atr = none) := by
  unfold AtrSt.update
  cases hb : s.bucket with
  | none => exact ⟨rfl, h⟩
  | some b =>
    by_cases hmk : mk = b.last_min
    · simp only [if_pos hmk]
      exact ⟨trivial, h⟩
    · simp only [if_neg hmk]
      refine ⟨trivial, ?_⟩
      intro hlt
      rw [List.length_append, List.length_singleton] at hlt
      rw [if_neg (by rw [List.length_append, List.length_singleton]; omega)]
      exact h (by omega)

theorem atr_warmup_fold (s : AtrSt) (ups : List (ℕ × PyFloat))
    (h : s.trs.length < s.period → s.atr = none) :
    (s.applyAll ups).period = s.period
    ∧ ((s.applyAll ups).trs.length < s.period → (s.applyAll ups).atr = none) := by
  induction ups generalizing s with
  | nil => exact ⟨rfl, h⟩
  | cons u us ih =>
    obtain ⟨hp, ha⟩ := atr_update_step s u.1 u.2 h
    have ih' := ih ((s.update u.1 u.2).1) (by rw [hp]; exact ha)
    have hfold : s.applyAll (u :: us) = ((s.update u.1 u.2).1).applyAll us := rfl
    rw [hfold]
    exact ⟨by rw [ih'.1, hp], by rw [hp] at ih'; exact ih'.2⟩

/-- Claim C6: the ATR is `none` until `period` true-range samples have
accumulated (along any run of updates from a fresh builder); on each minute
rollover the true range `max(high-low, |high-prevClose|, |low-prevClose|)` of
the finished bucket is appended, the ATR becomes `round(mean of the most
recent `period` true ranges, 2)` — a sliding window over `trs[-period:]`,
recomputed anew at each rollover — once at least `period` samples exist (and
is otherwise left at its previous value), `prev_c` becomes the finished
bucket's close, and the new bucket is seeded with the new sample. -/
theorem c6_atr (period : ℕ) (_hper : 0 < period) :
    (∀ ups : List (ℕ × PyFloat),
        ((AtrSt.init period).applyAll ups).trs.length < period →
        ((AtrSt.init period).applyAll ups).atr = none)
    ∧ ∀ (st : AtrSt) (b : AtrBucket) (mk : ℕ) (h l c pc : ℚ) (p : PyFloat),
        st.period = period → st.bucket = some b → b.h = .fin h → b.l = .fin l →
        b.c = .fin c → b.prev_c = .fin pc → mk ≠ b.last_min →
        (st.update mk p).1.trs
            = st.trs ++ [.fin (max (h - l) (max |h - pc| |l - pc|))]
        ∧ (st.update mk p).1.bucket = some ⟨mk, p, p, p, .fin c⟩
        ∧ (st.update mk p).1.atr =
            (if period ≤ st.trs.length + 1 then
              some (PyFloat.round2dp (PyFloat.div
                (PyFloat.sum (lastN period
                  (st.trs ++ [.fin (max (h - l) (max |h - pc| |l - pc|))])))
                (.fin period)))
             else st.atr)
        ∧ (st.update mk p).2 = (st.update mk p).1.atr := by
  constructor
  · intro ups
    have h0 : (AtrSt.init period).trs.length < (AtrSt.init period).period →
        (AtrSt.init period).atr = none := fun _ => rfl
    have := atr_warmup_fold (AtrSt.init period) ups h0
    exact this.2
  · intro st b mk h l c pc p hper' hb hh hl hc hpc hmk
    have htr : PyFloat.pymax (PyFloat.pymax (PyFloat.sub b.h b.l)
        (PyFloat.pabs (PyFloat.sub b.h b.prev_c))) (PyFloat.pabs (PyFloat.sub b.l b.prev_c))
        = .fin (max (h - l) (max |h - pc| |l - pc|)) := by
      rw [hh, hl, hpc]
      simp only [PyFloat.sub, PyFloat.pabs, pymax_fin]
      rw [max_assoc]
    unfold AtrSt.update
    rw [hb]
    simp only [if_neg hmk, htr, hc, hper', List.length_append, List.length_singleton]
    refine ⟨?_, ?_, ?_, ?_⟩ <;> trivial

/-- A warm ATR builder: period 3, two true ranges banked, bucket at minute 5
with high 107, low 99, close 104, previous close 101. -/
def atrW : AtrSt :=
  { period := 3, trs := [.fin 10, .fin 12],
    bucket := some ⟨5, .fin 107, .fin 99, .fin 104, .fin 101⟩, atr := none }

/-- Witness for claim C6 at concrete inputs: warm-up keeps the ATR `none`, and
the rollover at minute 6 banks the true range max(8, 6, 2) = 8 and sets
ATR = round(mean(10, 12, 8), 2) = 10. -/
theorem c6_atr_w :
    ((AtrSt.init 3).applyAll []).atr = none
    ∧ (atrW.update 6 (.fin 103)).1.trs = [.fin 10, .fin 12, .fin 8]
    ∧ (atrW.update 6 (.fin 103)).1.bucket = some ⟨6, .fin 103, .fin 103, .fin 103, .fin 104⟩
    ∧ (atrW.update 6 (.fin 103)).1.atr = some (.fin 10)
    ∧ (atrW.update 6 (.fin 103)).2 = some (.fin 10) := by
  have h2 := (c6_atr 3 (by norm_num)).2 atrW ⟨5, .fin 107, .fin 99, .fin 104, .fin 101⟩
    6 107 99 104 101 (.fin 103) rfl rfl rfl rfl rfl rfl (by norm_num)
  obtain ⟨ht, hbk, hatr, hret⟩ := h2
  have h1 := (c6_atr 3 (by norm_num)).1 [] (by simp [AtrSt.applyAll, AtrSt.init])
  have htr8 : (max ((107 : ℚ) - 99) (max |(107 : ℚ) - 101| |(99 : ℚ) - 101|)) = 8 := by
    norm_num
  refine ⟨h1, ?_, hbk, ?_, ?_⟩
  · rw [ht, htr8]; rfl
  · rw [hatr, htr8]
    norm_num [lastN, PyFloat.sum, PyFloat.add, PyFloat.div, PyFloat.round2dp, round2, atrW]
  · rw [hret, hatr, htr8]
    norm_num [lastN, PyFloat.sum, PyFloat.add, PyFloat.div, PyFloat.round2dp, round2, atrW]

/-! ### Claim C3 -/

/-- Claim C3: any erroring kill-switch read resolves to not-allowed, and a tick
that finds the position OPEN with the (possibly just re-read) flag not-allowed
fires KILL_SWITCH_EXIT: it sells both legs at the fetched exit prices, adds
their PnL to the realized total, logs exactly one KILL_SWITCH_EXIT row, and
clears every position field — for every exit/entry price combination, i.e.
regardless of the sign of the unrealized PnL. -/
theorem c3_kill_switch (live : Bool) (env : Env) (s : St) (spot fut : ℚ) (vx : ℚ × ℚ)
    (cs ps : String) (ceE peE cx px : ℚ)
    (hh : in_market_hours env.now = true)
    (hpo : s.position_open = true)
    (hfa : effAllowed env s = false)
    (hsp : env.spotPx = some spot) (hfu : env.futPx = some fut) (hvx : env.vixQ = some vx)
    (hcs : s.ce_symbol = some cs) (hps : s.pe_symbol = some ps)
    (hce : s.ce_entry = some ceE) (hpe : s.pe_entry = some peE)
    (hkc : env.killCeExit = some cx) (hkp : env.killPeExit = some px)
    (hsc : env.killSellCe = some ()) (hsp2 : env.killSellPe = some ()) :
    read_trade_flag FlagRead.err = false
    ∧ (tick live env s).evs = [⟨.killSwitchExit, minuteKey env.now⟩]
    ∧ (tick live env s).st.position_open = false
    ∧ (tick live env s).st.active_atm = none
    ∧ (tick live env s).st.ce_symbol = none
    ∧ (tick live env s).st.pe_symbol = none
    ∧ (tick live env s).st.ce_entry = none
    ∧ (tick live env s).st.pe_entry = none
    ∧ (tick live env s).st.realized_pnl
        = s.realized_pnl + (cx - ceE + px - peE) * QTY_PER_LEG
    ∧ (tick live env s).errored = false := by
  simp only [tick, hh, hsp, hfu, hvx, killBranch,
    refreshFlag_position_open, refreshFlag_trade_allowed, refreshFlag_ce_symbol,
    refreshFlag_pe_symbol, refreshFlag_ce_entry, refreshFlag_pe_entry,
    refreshFlag_realized_pnl, hpo, hfa, hcs, hps, hce, hpe, hkc, hkp, hsc, hsp2,
    Bool.not_false, Bool.and_self, Bool.and_true, Bool.true_and, ite_self, if_true,
    ite_true]
  refine ⟨rfl, ?_, ?_, ?_, ?_, ?_, ?_, ?_, ?_, ?_⟩ <;> trivial

/-- A tick at 10:01:00 whose kill-switch re-read raises and whose legs exit at
120/60 (a net profitable position, so the exit is not PnL-motivated). -/
def envK : Env :=
  { envAllOk with
      now := ⟨0, 10, 1, 0⟩, flagRead := .err,
      killCeExit := some 120, killPeExit := some 60 }

/-- Witness for claim C3 at a concrete input. -/
theorem c3_kill_switch_w :
    read_trade_flag FlagRead.err = false
    ∧ (tick false envK sOpen0).evs = [⟨.killSwitchExit, 601⟩]
    ∧ (tick false envK sOpen0).st.position_open = false
    ∧ (tick false envK sOpen0).st.active_atm = none
    ∧ (tick false envK sOpen0).st.ce_symbol = none
    ∧ (tick false envK sOpen0).st.pe_symbol = none
    ∧ (tick false envK sOpen0).st.ce_entry = none
    ∧ (tick false envK sOpen0).st.pe_entry = none
    ∧ (tick false envK sOpen0).st.realized_pnl
        = sOpen0.realized_pnl + (120 - 100 + 60 - 80) * QTY_PER_LEG
    ∧ (tick false envK sOpen0).errored = false :=
  c3_kill_switch false envK sOpen0 22498 22500 (12, 13)
    "NFO:NIFTY24C22500" "NFO:NIFTY24P22500" 100 80 120 60
    rfl rfl rfl rfl rfl rfl rfl rfl rfl rfl rfl rfl rfl rfl

/-! ### Claim C4 -/

theorem killBranch_evs (live : Bool) (env : Env) (s : St) :
    (killBranch live env s).evs = []
    ∨ (killBranch live env s).evs = [⟨.killSwitchExit, minuteKey env.now⟩] := by
  unfold killBranch
  repeat' split
  all_goals first | exact Or.inl rfl | exact Or.inr rfl

theorem c4_part2 (live : Bool) (env : Env) (s : St)
    (hfa : effAllowed env s = false) :
    hasKind (tick live env s) .entry = false
    ∧ hasKind (tick live env s) .rollExit = false
    ∧ hasKind (tick live env s) .rollEntry = false := by
  cases hm : in_market_hours env.now with
  | false => simp [tick, hm, hasKind]
  | true =>
    cases hsp : env.spotPx with
    | none => simp [tick, hm, hsp, hasKind]
    | some spot =>
      cases hfu : env.futPx with
      | none => simp [tick, hm, hsp, hfu, hasKind]
      | some fut =>
        cases hvx : env.vixQ with
        | none => simp [tick, hm, hsp, hfu, hvx, hasKind]
        | some vx =>
          cases hpo : s.position_open with
          | true =>
            have hkb := killBranch_evs live env
              { refreshFlag env s with
                  atrSt := ((refreshFlag env s).atrSt.update (minuteKey env.now) (.fin fut)).1 }
            simp only [tick, hm, hsp, hfu, hvx, refreshFlag_position_open,
              refreshFlag_trade_allowed, hpo, hfa, Bool.not_false, Bool.and_true,
              ite_true, if_true] at hkb ⊢
            rcases hkb with h | h <;> simp [hasKind, h]
          | false =>
            simp [tick, hm, hsp, hfu, hvx, refreshFlag_position_open,
              refreshFlag_trade_allowed, hpo, hfa, entryStep, manage, hasKind]

theorem unit_some (o : Option Unit) (h : o.isSome = true) : o = some () := by
  cases o with
  | none => simp at h
  | some u => cases u; rfl

theorem finalStep_evs (live : Bool) (env : Env) (s : St) (u : ℚ) (evs : List Ev) :
    (finalStep live env s u evs).evs = evs
    ∨ (finalStep live env s u evs).evs = evs ++ [⟨.finalExit, minuteKey env.now⟩] := by
  unfold finalStep
  repeat' split
  all_goals first | exact Or.inl rfl | exact Or.inr rfl

theorem finalStep_no_rollExit (live : Bool) (env : Env) (st : St) (u : ℚ) (evs : List Ev)
    (h : evs.any (fun e => e.kind == EvKind.rollExit) = false) :
    hasKind (finalStep live env st u evs) .rollExit = false := by
  rcases finalStep_evs live env st u evs with he | he <;>
    simp [hasKind, he, List.any_append] <;> simp [List.any_eq_true] at h ⊢ <;>
    intro e hmem <;> exact h e hmem

theorem rollStep_evs_ok (live : Bool) (env : Env) (st : St) (na : ℤ) (ce pe : ℚ)
    (evs : List Ev)
    (hrcx : env.rlCeExit = some rcx) (hrpx : env.rlPeExit = some rpx)
    (hrs1 : env.rlSellCe = some ()) (hrs2 : env.rlSellPe = some ())
    (hrcS : env.rlResCe = some rcS) (hrpS : env.rlResPe = some rpS)
    (hrcP : env.rlCePx = some rcP) (hrpP : env.rlPePx = some rpP)
    (hrb1 : env.rlBuyCe = some ()) (hrb2 : env.rlBuyPe = some ()) :
    (rollStep live env st na ce pe evs).evs
      = (evs ++ [⟨.rollExit, minuteKey env.now⟩]) ++ [⟨.rollEntry, minuteKey env.now⟩] := by
  simp [rollStep, hrcx, hrpx, hrs1, hrs2, hrcS, hrpS, hrcP, hrpP, hrb1, hrb2, ite_self]

theorem c4_part1 (live : Bool) (env : Env) (s : St) (spot : ℚ)
    (hOk : envOk env) (hInv : stAllOrNone s)
    (hm : in_market_hours env.now = true)
    (hsp : env.spotPx = some spot) :
    hasKind (tick live env s) .rollExit = true ↔
      (s.position_open = true ∧ effAllowed env s = true
        ∧ some (round_to_strike spot) ≠ s.active_atm
        ∧ |spot - ((round_to_strike spot : ℤ) : ℚ)| ≤ ENTRY_TOL) := by
  obtain ⟨h1, h2, h3, h4, h5, h6, h7, h8, h9, h10, h11, h12, h13, h14, h15,
    h16, h17, h18, h19, h20, h21, h22, h23, h24, h25, h26, h27, h28, h29⟩ := hOk
  obtain ⟨fut, hfu⟩ := Option.isSome_iff_exists.mp h2
  obtain ⟨vx, hvx⟩ := Option.isSome_iff_exists.mp h3
  obtain ⟨kcx, hkcx⟩ := Option.isSome_iff_exists.mp h4
  obtain ⟨kpx, hkpx⟩ := Option.isSome_iff_exists.mp h5
  have hks1 := unit_some _ h6
  have hks2 := unit_some _ h7
  obtain ⟨ceS, hceS⟩ := Option.isSome_iff_exists.mp h8
  obtain ⟨peS, hpeS⟩ := Option.isSome_iff_exists.mp h9
  obtain ⟨ceP, hceP⟩ := Option.isSome_iff_exists.mp h10
  obtain ⟨peP, hpeP⟩ := Option.isSome_iff_exists.mp h11
  have hb1 := unit_some _ h12
  have hb2 := unit_some _ h13
  obtain ⟨mgc, hmgc⟩ := Option.isSome_iff_exists.mp h14
  obtain ⟨mgp, hmgp⟩ := Option.isSome_iff_exists.mp h15
  obtain ⟨rcx, hrcx⟩ := Option.isSome_iff_exists.mp h16
  obtain ⟨rpx, hrpx⟩ := Option.isSome_iff_exists.mp h17
  have hrs1 := unit_some _ h18
  have hrs2 := unit_some _ h19
  obtain ⟨rcS, hrcS⟩ := Option.isSome_iff_exists.mp h20
  obtain ⟨rpS, hrpS⟩ := Option.isSome_iff_exists.mp h21
  obtain ⟨rcP, hrcP⟩ := Option.isSome_iff_exists.mp h22
  obtain ⟨rpP, hrpP⟩ := Option.isSome_iff_exists.mp h23
  have hrb1 := unit_some _ h24
  have hrb2 := unit_some _ h25
  obtain ⟨fcx, hfcx⟩ := Option.isSome_iff_exists.mp h26
  obtain ⟨fpx, hfpx⟩ := Option.isSome_iff_exists.mp h27
  have hfs1 := unit_some _ h28
  have hfs2 := unit_some _ h29
  rcases hInv with ⟨hpo, ha, hcs', hps', hce', hpe'⟩ | ⟨hpo, ha, hcs', hps', hce', hpe'⟩
  · -- OPEN at tick start
    obtain ⟨atm0, hatm⟩ := Option.isSome_iff_exists.mp ha
    obtain ⟨cs, hcs⟩ := Option.isSome_iff_exists.mp hcs'
    obtain ⟨ps, hps⟩ := Option.isSome_iff_exists.mp hps'
    obtain ⟨ceE, hce⟩ := Option.isSome_iff_exists.mp hce'
    obtain ⟨peE, hpe⟩ := Option.isSome_iff_exists.mp hpe'
    by_cases heff : effAllowed env s = true
    · by_cases hne : round_to_strike spot = atm0
      · -- same strike: no roll fires, and the RHS is false
        have hneb : decide (some (round_to_strike spot) ≠ some atm0) = false := by
          rw [hne]; simp
        simp only [tick, hm, hsp, hfu, hvx, refreshFlag_position_open,
          refreshFlag_trade_allowed, refreshFlag_ce_symbol, refreshFlag_pe_symbol,
          refreshFlag_ce_entry, refreshFlag_pe_entry, refreshFlag_last_snapshot_min,
          refreshFlag_active_atm, hpo, heff, Bool.not_true, Bool.and_false,
          Bool.false_and, Bool.and_true, Bool.true_and, ite_true, if_true,
          Bool.false_eq_true, if_false, entryStep, manage, hcs, hps, hce, hpe, hmgc, hmgp]
        by_cases hfire : flagDue s.last_snapshot_min (minuteKey env.now) = true
        · simp only [hfire, ite_true, if_true, hatm, hneb, Bool.and_false, Bool.false_and,
            Bool.false_eq_true, if_false]
          refine iff_of_false ?_ (by simp [hatm, hne])
          rw [Bool.not_eq_true]
          split
          · apply finalStep_no_rollExit
            simp
          · simp [hasKind]
        · simp only [Bool.not_eq_true] at hfire
          simp only [hfire, Bool.false_eq_true, if_false, hatm, hneb, Bool.and_false,
            Bool.false_and]
          refine iff_of_false ?_ (by simp [hatm, hne])
          rw [Bool.not_eq_true]
          split
          · apply finalStep_no_rollExit
            simp
          · simp [hasKind]
      · by_cases htol : |spot - ((round_to_strike spot : ℤ) : ℚ)| ≤ ENTRY_TOL
        · -- roll fires
          have hneb : decide (some (round_to_strike spot) ≠ some atm0) = true :=
            decide_eq_true (by simp [hne])
          have htolb : decide (|spot - ((round_to_strike spot : ℤ) : ℚ)| ≤ ENTRY_TOL) = true :=
            decide_eq_true htol
          simp only [tick, hm, hsp, hfu, hvx, refreshFlag_position_open,
            refreshFlag_trade_allowed, refreshFlag_ce_symbol, refreshFlag_pe_symbol,
            refreshFlag_ce_entry, refreshFlag_pe_entry, refreshFlag_last_snapshot_min,
            refreshFlag_active_atm, hpo, heff, Bool.not_true, Bool.and_false,
            Bool.false_and, Bool.and_true, Bool.true_and, ite_true, if_true,
            Bool.false_eq_true, if_false, entryStep, manage, hcs, hps, hce, hpe, hmgc, hmgp]
          by_cases hfire : flagDue s.last_snapshot_min (minuteKey env.now) = true
          · simp only [hfire, ite_true, if_true, hatm, hneb, htolb, Bool.and_self,
              Bool.and_true, Bool.true_and]
            simp only [hasKind]
            rw [rollStep_evs_ok live env _ _ _ _ _ hrcx hrpx hrs1 hrs2 hrcS hrpS hrcP
              hrpP hrb1 hrb2]
            simp [hne, htol]
          · simp only [Bool.not_eq_true] at hfire
            simp only [hfire, Bool.false_eq_true, if_false, hatm, hneb, htolb,
              Bool.and_self, Bool.and_true, Bool.true_and, ite_true, if_true]
            simp only [hasKind]
            rw [rollStep_evs_ok live env _ _ _ _ _ hrcx hrpx hrs1 hrs2 hrcS hrpS hrcP
              hrpP hrb1 hrb2]
            simp [hne, htol]
        · -- tolerance fails: no roll
          have htolb : decide (|spot - ((round_to_strike spot : ℤ) : ℚ)| ≤ ENTRY_TOL) = false :=
            decide_eq_false htol
          simp only [tick, hm, hsp, hfu, hvx, refreshFlag_position_open,
            refreshFlag_trade_allowed, refreshFlag_ce_symbol, refreshFlag_pe_symbol,
            refreshFlag_ce_entry, refreshFlag_pe_entry, refreshFlag_last_snapshot_min,
            refreshFlag_active_atm, hpo, heff, Bool.not_true, Bool.and_false,
            Bool.false_and, Bool.and_true, Bool.true_and, ite_true, if_true,
            Bool.false_eq_true, if_false,
            entryStep, manage, hcs, hps, hce, hpe, hmgc, hmgp, htolb]
          refine iff_of_false ?_ (by simp [htol])
          rw [Bool.not_eq_true]
          split_ifs <;>
            simp_all [hasKind, finalStep, hfcx, hfpx, hfs1, hfs2, ite_self]
    · -- kill switch fires
      simp only [Bool.not_eq_true] at heff
      simp only [tick, hm, hsp, hfu, hvx, refreshFlag_position_open,
        refreshFlag_trade_allowed, refreshFlag_ce_symbol, refreshFlag_pe_symbol,
        refreshFlag_ce_entry, refreshFlag_pe_entry, hpo, heff, Bool.not_false,
        Bool.and_true, Bool.and_self, ite_true, if_true, killBranch,
        hcs, hps, hce, hpe, hkcx, hkpx, hks1, hks2, ite_self]
      simp [hasKind, heff]
  · -- FLAT at tick start: no ROLL can fire
    suffices hK : hasKind (tick live env s) .rollExit = false by simp [hK, hpo]
    by_cases heff : effAllowed env s = true
    · by_cases hd : |spot - ((round_to_strike spot : ℤ) : ℚ)| ≤ ENTRY_TOL
      · simp only [tick, hm, hsp, hfu, hvx, refreshFlag_position_open,
          refreshFlag_trade_allowed, refreshFlag_ce_symbol, refreshFlag_pe_symbol,
          refreshFlag_ce_entry, refreshFlag_pe_entry, refreshFlag_last_snapshot_min,
          hpo, heff, Bool.not_false, Bool.and_true, Bool.true_and, Bool.and_false,
          Bool.false_and, ite_true, if_true, Bool.not_true, entryStep,
          decide_eq_true hd, hceS, hpeS, hceP, hpeP, hb1, hb2, ite_self]
        have hself : decide (some (round_to_strike spot) ≠ some (round_to_strike spot))
            = false := by simp
        simp only [Bool.false_eq_true, if_false, manage, flagDue, hmgc, hmgp, ite_true,
          if_true, hself, Bool.and_false, Bool.false_and]
        split_ifs <;>
          simp_all [hasKind, finalStep, hfcx, hfpx, hfs1, hfs2, ite_self]
      · simp only [tick, hm, hsp, hfu, hvx, refreshFlag_position_open,
          refreshFlag_trade_allowed, hpo, heff, Bool.not_false, Bool.and_true,
          Bool.true_and, Bool.and_false, Bool.false_and, ite_true, if_true,
          Bool.not_true, entryStep, decide_eq_false hd, manage]
        simp [hasKind]
    · simp only [Bool.not_eq_true] at heff
      simp only [tick, hm, hsp, hfu, hvx, refreshFlag_position_open,
        refreshFlag_trade_allowed, hpo, heff, Bool.and_false, Bool.false_and,
        Bool.and_self, ite_true, if_true, entryStep, manage, Bool.false_eq_true,
        if_false]
      simp [hasKind]

/-- Claim C4: with the state well-formed and every external call succeeding, a
ROLL (witnessed by its ROLL_EXIT row) fires on an in-hours tick if and only if
the position is OPEN, the kill-switch allows trading, the candidate strike
differs from the active strike, and |spot - candidateStrike| <= tolerance;
moreover — for every state and any tick whatsoever — no ENTRY, ROLL_EXIT or
ROLL_ENTRY row is ever logged while the kill-switch is not-allowed. -/
theorem c4_roll_guard :
    (∀ (live : Bool) (env : Env) (s : St) (spot : ℚ),
        envOk env → stAllOrNone s → in_market_hours env.now = true →
        env.spotPx = some spot →
        (hasKind (tick live env s) .rollExit = true ↔
          (s.position_open = true ∧ effAllowed env s = true
            ∧ some (round_to_strike spot) ≠ s.active_atm
            ∧ |spot - ((round_to_strike spot : ℤ) : ℚ)| ≤ ENTRY_TOL)))
    ∧ ∀ (live : Bool) (env : Env) (s : St),
        effAllowed env s = false →
        hasKind (tick live env s) .entry = false
        ∧ hasKind (tick live env s) .rollExit = false
        ∧ hasKind (tick live env s) .rollEntry = false :=
  ⟨fun live env s spot hOk hInv hm hsp => c4_part1 live env s spot hOk hInv hm hsp,
   fun live env s hfa => c4_part2 live env s hfa⟩

/-- A roll tick at 10:00:20 with spot 22547 and every external call succeeding. -/
def envRoll : Env := { envAllOk with now := ⟨0, 10, 0, 20⟩, spotPx := some 22547 }

/-- Witness for claim C4 at concrete inputs: the roll fires at spot 22547 from
strike 22500 (candidate 22550, distance 3 <= 4), and with the flag not-allowed
no entry or roll row appears. -/
theorem c4_roll_guard_w :
    hasKind (tick false envRoll sOpen0) .rollExit = true
    ∧ hasKind (tick false envK sOpen0) .entry = false
    ∧ hasKind (tick false envK sOpen0) .rollExit = false
    ∧ hasKind (tick false envK sOpen0) .rollEntry = false := by
  have hrts : round_to_strike 22547 = 22550 := by
    norm_num [round_to_strike, STRIKE_STEP]
  have h1 := (c4_roll_guard.1 false envRoll sOpen0 22547 (by decide) (by decide)
    rfl rfl).mpr ⟨rfl, rfl, by rw [hrts]; decide, by rw [hrts]; norm_num [ENTRY_TOL]⟩
  have h2 := c4_roll_guard.2 false envK sOpen0 rfl
  exact ⟨h1, h2.1, h2.2.1, h2.2.2⟩

/-! ### Claim C5 -/

theorem tick_preserves_inv (live : Bool) (env : Env) (s : St)
    (hOk : envOk env) (hInv : stAllOrNone s) : stAllOrNone (tick live env s).st := by
  obtain ⟨h1, h2, h3, h4, h5, h6, h7, h8, h9, h10, h11, h12, h13, h14, h15,
    h16, h17, h18, h19, h20, h21, h22, h23, h24, h25, h26, h27, h28, h29⟩ := hOk
  obtain ⟨fut, hfu⟩ := Option.isSome_iff_exists.mp h2
  obtain ⟨vx, hvx⟩ := Option.isSome_iff_exists.mp h3
  obtain ⟨kcx, hkcx⟩ := Option.isSome_iff_exists.mp h4
  obtain ⟨kpx, hkpx⟩ := Option.isSome_iff_exists.mp h5
  have hks1 := unit_some _ h6
  have hks2 := unit_some _ h7
  obtain ⟨ceS, hceS⟩ := Option.isSome_iff_exists.mp h8
  obtain ⟨peS, hpeS⟩ := Option.isSome_iff_exists.mp h9
  obtain ⟨ceP, hceP⟩ := Option.isSome_iff_exists.mp h10
  obtain ⟨peP, hpeP⟩ := Option.isSome_iff_exists.mp h11
  have hb1 := unit_some _ h12
  have hb2 := unit_some _ h13
  obtain ⟨mgc, hmgc⟩ := Option.isSome_iff_exists.mp h14
  obtain ⟨mgp, hmgp⟩ := Option.isSome_iff_exists.mp h15
  obtain ⟨rcx, hrcx⟩ := Option.isSome_iff_exists.mp h16
  obtain ⟨rpx, hrpx⟩ := Option.isSome_iff_exists.mp h17
  have hrs1 := unit_some _ h18
  have hrs2 := unit_some _ h19
  obtain ⟨rcS, hrcS⟩ := Option.isSome_iff_exists.mp h20
  obtain ⟨rpS, hrpS⟩ := Option.isSome_iff_exists.mp h21
  obtain ⟨rcP, hrcP⟩ := Option.isSome_iff_exists.mp h22
  obtain ⟨rpP, hrpP⟩ := Option.isSome_iff_exists.mp h23
  have hrb1 := unit_some _ h24
  have hrb2 := unit_some _ h25
  obtain ⟨fcx, hfcx⟩ := Option.isSome_iff_exists.mp h26
  obtain ⟨fpx, hfpx⟩ := Option.isSome_iff_exists.mp h27
  have hfs1 := unit_some _ h28
  have hfs2 := unit_some _ h29
  cases hm : in_market_hours env.now with
  | false => simpa [tick, hm] using hInv
  | true =>
    rcases hInv with ⟨hpo, ha, hcs2, hps2, hce2, hpe2⟩ | ⟨hpo, ha, hcs2, hps2, hce2, hpe2⟩
    · -- OPEN
      obtain ⟨atm0, hatm⟩ := Option.isSome_iff_exists.mp ha
      obtain ⟨cs, hcs⟩ := Option.isSome_iff_exists.mp hcs2
      obtain ⟨ps, hps⟩ := Option.isSome_iff_exists.mp hps2
      obtain ⟨ceE, hce⟩ := Option.isSome_iff_exists.mp hce2
      obtain ⟨peE, hpe⟩ := Option.isSome_iff_exists.mp hpe2
      by_cases heff : effAllowed env s = true
      · simp only [tick, hm, hfu, hvx, refreshFlag_position_open,
          refreshFlag_trade_allowed, refreshFlag_ce_symbol, refreshFlag_pe_symbol,
          refreshFlag_ce_entry, refreshFlag_pe_entry, refreshFlag_last_snapshot_min,
          refreshFlag_active_atm, hpo, heff, Bool.not_true, Bool.and_false,
          Bool.false_and, Bool.and_true, Bool.true_and, ite_true, if_true,
          Bool.false_eq_true, if_false, entryStep, manage, hcs, hps, hce, hpe,
          hmgc, hmgp, hatm]
        cases hsp : env.spotPx with
        | none => simp [stAllOrNone, refreshFlag_position_open, refreshFlag_active_atm, refreshFlag_ce_symbol, refreshFlag_pe_symbol, refreshFlag_ce_entry, refreshFlag_pe_entry, hpo, ha, hcs2, hps2, hce2, hpe2]
        | some spot =>
          simp only []
          split_ifs <;>
            simp_all [stAllOrNone, rollStep, finalStep, hrcx, hrpx, hrs1, hrs2,
              hrcS, hrpS, hrcP, hrpP, hrb1, hrb2, hfcx, hfpx, hfs1, hfs2, ite_self]
      · simp only [Bool.not_eq_true] at heff
        simp only [tick, hm, hfu, hvx, refreshFlag_position_open,
          refreshFlag_trade_allowed, refreshFlag_ce_symbol, refreshFlag_pe_symbol,
          refreshFlag_ce_entry, refreshFlag_pe_entry, hpo, heff, Bool.not_false,
          Bool.and_true, Bool.and_self, ite_true, if_true, killBranch,
          hcs, hps, hce, hpe, hkcx, hkpx, hks1, hks2, ite_self]
        cases hsp : env.spotPx with
        | none => simp [stAllOrNone, refreshFlag_position_open, refreshFlag_active_atm, refreshFlag_ce_symbol, refreshFlag_pe_symbol, refreshFlag_ce_entry, refreshFlag_pe_entry, hpo, ha, hcs2, hps2, hce2, hpe2]
        | some spot => simp [stAllOrNone]
    · -- FLAT
      simp only [tick, hm, hfu, hvx, refreshFlag_position_open,
        refreshFlag_trade_allowed, refreshFlag_ce_symbol, refreshFlag_pe_symbol,
        refreshFlag_ce_entry, refreshFlag_pe_entry, refreshFlag_last_snapshot_min,
        refreshFlag_active_atm, hpo, Bool.not_false, Bool.and_true, Bool.true_and,
        Bool.and_false, Bool.false_and, ite_true, if_true, Bool.false_eq_true,
        if_false, entryStep, manage, hcs2, hps2, hce2, hpe2, hceS, hpeS, hceP, hpeP,
        hb1, hb2, hmgc, hmgp, ite_self, ha]
      cases hsp : env.spotPx with
      | none => simp [stAllOrNone, refreshFlag_position_open, refreshFlag_active_atm, refreshFlag_ce_symbol, refreshFlag_pe_symbol, refreshFlag_ce_entry, refreshFlag_pe_entry, ha, hcs2, hps2, hce2, hpe2, hpo]
      | some spot =>
        simp only []
        split_ifs <;>
          simp_all [stAllOrNone, rollStep, finalStep, hrcx, hrpx, hrs1, hrs2,
            hrcS, hrpS, hrcP, hrpP, hrb1, hrb2, hfcx, hfpx, hfs1, hfs2, ite_self, flagDue]
        split_ifs <;> simp_all [stAllOrNone]

theorem run_preserves_inv (live : Bool) (envs : List Env) (s : St)
    (h : stAllOrNone s) (hall : ∀ e ∈ envs, envOk e) :
    stAllOrNone (run live s envs).1 := by
  induction envs generalizing s with
  | nil => exact h
  | cons e es ih =>
    have h1 := tick_preserves_inv live e s (hall e (by simp)) h
    have h2 := ih (tick live e s).st h1 (fun e' he' => hall e' (by simp [he']))
    simpa [run] using h2

/-- A tick environment whose PE-leg symbol resolution raises mid-ENTRY. -/
def envEntryFail : Env := { envAllOk with entResPe := none }

/-- Counterexample to claim C5: one tick from the initial state, with the
entry guard satisfied, CE resolution succeeding and PE resolution raising,
reaches a tick-boundary state that is partially populated: the position is
FLAT (`position_open = false`) yet `ce_symbol` is set while `pe_symbol` is
`None`. -/
theorem c5_cex :
    ¬ stAllOrNone (run false initState [envEntryFail]).1
    ∧ (run false initState [envEntryFail]).1.position_open = false
    ∧ (run false initState [envEntryFail]).1.ce_symbol = some "NFO:NIFTY24C22500"
    ∧ (run false initState [envEntryFail]).1.pe_symbol = none := by
  have hpo : (run false initState [envEntryFail]).1.position_open = false := by
    with_unfolding_all rfl
  have hcs : (run false initState [envEntryFail]).1.ce_symbol
      = some "NFO:NIFTY24C22500" := by
    with_unfolding_all rfl
  refine ⟨?_, hpo, hcs, by with_unfolding_all rfl⟩
  rintro (⟨h1, -, -, -, -, -⟩ | ⟨-, -, h3, -, -, -⟩)
  · rw [hpo] at h1; exact Bool.false_ne_true h1
  · rw [hcs] at h3; exact Option.noConfusion h3

/-- Claim C5 as amended: the all-populated-or-all-empty `StraddlePosition`
invariant holds in every state reachable at a tick boundary along runs in
which no external call raises; a raise in the middle of an ENTRY (or ROLL)
can leave a partially-populated state behind (see the counterexample). -/
theorem c5_invariant (live : Bool) (envs : List Env)
    (hall : ∀ e ∈ envs, envOk e) :
    stAllOrNone (run live initState envs).1 :=
  run_preserves_inv live envs initState (Or.inr ⟨rfl, rfl, rfl, rfl, rfl, rfl⟩) hall

/-- Witness for the amended claim C5 at a concrete input. -/
theorem c5_invariant_w : stAllOrNone (run false initState [envAllOk]).1 :=
  c5_invariant false [envAllOk] (by intro e he; rw [List.mem_singleton.mp he]; decide)

/-! ### Claim C9 -/

/-- Events that start a new leg-set (reset the snapshot dedup key and open a
fresh set of legs): ENTRY and ROLL_ENTRY rows. -/
def isBoundaryB (e : Ev) : Bool := e.kind == .entry || e.kind == .rollEntry

/-- SNAPSHOT rows. -/
def isSnapB (e : Ev) : Bool := e.kind == .snapshot

/-- Number of leg-set boundaries in a row list. -/
def bcount (l : List Ev) : ℕ := l.countP isBoundaryB

/-- Annotate each row with the index of the leg-set segment it belongs to. -/
def segAnnot : ℕ → List Ev → List (Ev × ℕ)
  | _, [] => []
  | n, e :: rest => (e, n) :: segAnnot (if isBoundaryB e then n + 1 else n) rest

/-- Two snapshots in the same leg-set segment occur at strictly increasing
minute keys. -/
def segRel (a b : Ev × ℕ) : Prop :=
  a.2 = b.2 → isSnapB a.1 = true → isSnapB b.1 = true → a.1.emin < b.1.emin

/-- The inductive invariant tying the dedup key (`last_snapshot_min`), the
position flag and the rows logged so far. -/
def SegInv (pos : Bool) (last : Option ℕ) (evs : List Ev) : Prop :=
  List.Pairwise segRel (segAnnot 0 evs)
  ∧ (∀ m, last = some m → ∀ p ∈ segAnnot 0 evs, p.2 = bcount evs →
      isSnapB p.1 = true → p.1.emin ≤ m)
  ∧ (last = none → pos = true → ∀ p ∈ segAnnot 0 evs, p.2 = bcount evs →
      isSnapB p.1 = false)
  ∧ (pos = false → last = none)

theorem bcount_cons (e : Ev) (l : List Ev) :
    bcount (e :: l) = bcount l + (if isBoundaryB e then 1 else 0) := by
  simp [bcount, List.countP_cons]

theorem segAnnot_append (l l' : List Ev) : ∀ n,
    segAnnot n (l ++ l') = segAnnot n l ++ segAnnot (n + bcount l) l' := by
  induction l with
  | nil => intro n; simp [segAnnot, bcount]
  | cons e rest ih =>
    intro n
    rw [List.cons_append]
    rw [show segAnnot n ((e :: rest) : List Ev)
        = (e, n) :: segAnnot (if isBoundaryB e then n + 1 else n) rest from rfl]
    rw [show segAnnot n (e :: (rest ++ l'))
        = (e, n) :: segAnnot (if isBoundaryB e then n + 1 else n) (rest ++ l') from rfl]
    rw [List.cons_append, ih]
    have harith : n + bcount (e :: rest)
        = (if isBoundaryB e then n + 1 else n) + bcount rest := by
      rw [bcount_cons]
      by_cases hb : isBoundaryB e = true
      · rw [if_pos hb, if_pos hb]; omega
      · simp only [Bool.not_eq_true] at hb
        rw [hb]
        simp
    rw [harith]

theorem segAnnot_ub (l : List Ev) : ∀ n, ∀ p ∈ segAnnot n l, p.2 ≤ n + bcount l := by
  induction l with
  | nil => intro n p hp; simp [segAnnot] at hp
  | cons e rest ih =>
    intro n p hp
    simp only [segAnnot, List.mem_cons] at hp
    rcases hp with rfl | hp
    · simp
    · rw [bcount_cons]
      by_cases hb : isBoundaryB e = true
      · rw [if_pos hb] at hp
        have := ih (n + 1) p hp
        rw [if_pos hb]
        omega
      · simp only [Bool.not_eq_true] at hb
        rw [hb] at hp
        simp only [Bool.false_eq_true, if_false] at hp
        have := ih n p hp
        rw [hb]
        simp only [Bool.false_eq_true, if_false]
        omega

theorem snap_not_boundary (e : Ev) (h : isSnapB e = true) : isBoundaryB e = false := by
  simp only [isSnapB, beq_iff_eq] at h
  simp [isBoundaryB, h]

theorem segInv_snoc_plain (pos : Bool) (last : Option ℕ) (evs : List Ev) (e : Ev)
    (hs : isSnapB e = false) (hb : isBoundaryB e = false) :
    SegInv pos last evs → SegInv pos last (evs ++ [e]) := by
  rintro ⟨hP, hA, hB, hC⟩
  have hann : segAnnot 0 (evs ++ [e]) = segAnnot 0 evs ++ [(e, bcount evs)] := by
    rw [segAnnot_append]; simp [segAnnot]
  have hbc : bcount (evs ++ [e]) = bcount evs := by
    simp [bcount, List.countP_append, List.countP_cons, hb]
  refine ⟨?_, ?_, ?_, hC⟩
  · rw [hann]
    rw [List.pairwise_append]
    refine ⟨hP, by simp [segRel], ?_⟩
    intro a ha b hbm
    simp only [List.mem_singleton] at hbm
    subst hbm
    intro _ _ hsb
    rw [hs] at hsb
    exact absurd hsb (by simp)
  · intro m hm p hp hpseg hpsnap
    rw [hann] at hp
    rw [hbc] at hpseg
    rcases List.mem_append.mp hp with hp | hp
    · exact hA m hm p hp hpseg hpsnap
    · simp only [List.mem_singleton] at hp
      subst hp
      rw [hs] at hpsnap
      exact absurd hpsnap (by simp)
  · intro hnone hpos p hp hpseg
    rw [hann] at hp
    rw [hbc] at hpseg
    rcases List.mem_append.mp hp with hp | hp
    · exact hB hnone hpos p hp hpseg
    · simp only [List.mem_singleton] at hp
      subst hp
      exact hs

theorem segInv_snoc_clear (pos : Bool) (last : Option ℕ) (evs : List Ev) (e : Ev)
    (hs : isSnapB e = false) (hb : isBoundaryB e = false) :
    SegInv pos last evs → SegInv false none (evs ++ [e]) := by
  intro h
  obtain ⟨hP, hA, hB, hC⟩ := segInv_snoc_plain pos last evs e hs hb h
  exact ⟨hP, by simp, by simp, fun _ => rfl⟩

theorem segInv_snoc_bound (pos : Bool) (last : Option ℕ) (evs : List Ev) (e : Ev)
    (hb : isBoundaryB e = true) (hs : isSnapB e = false) :
    SegInv pos last evs → SegInv true none (evs ++ [e]) := by
  rintro ⟨hP, hA, hB, hC⟩
  have hann : segAnnot 0 (evs ++ [e]) = segAnnot 0 evs ++ [(e, bcount evs)] := by
    rw [segAnnot_append]; simp [segAnnot]
  have hbc : bcount (evs ++ [e]) = bcount evs + 1 := by
    simp [bcount, List.countP_append, List.countP_cons, hb]
  refine ⟨?_, by simp, ?_, by simp⟩
  · rw [hann, List.pairwise_append]
    refine ⟨hP, by simp [segRel], ?_⟩
    intro a ha b hbm
    simp only [List.mem_singleton] at hbm
    subst hbm
    intro _ _ hsb
    rw [hs] at hsb
    exact absurd hsb (by simp)
  · intro _ _ p hp hpseg
    rw [hann] at hp
    rw [hbc] at hpseg
    rcases List.mem_append.mp hp with hp | hp
    · have := segAnnot_ub evs 0 p hp
      exact absurd hpseg (by omega)
    · simp only [List.mem_singleton] at hp
      subst hp
      simp only at hpseg
      exact absurd hpseg (by omega)

theorem segInv_snoc_snap (last : Option ℕ) (evs : List Ev) (m' : ℕ)
    (hcond : last = none ∨ ∃ m, last = some m ∧ m < m') :
    SegInv true last evs → SegInv true (some m') (evs ++ [⟨.snapshot, m'⟩]) := by
  rintro ⟨hP, hA, hB, hC⟩
  have hann : segAnnot 0 (evs ++ [⟨.snapshot, m'⟩])
      = segAnnot 0 evs ++ [(⟨.snapshot, m'⟩, bcount evs)] := by
    rw [segAnnot_append]; simp [segAnnot]
  have hbc : bcount (evs ++ [⟨.snapshot, m'⟩]) = bcount evs := by
    simp [bcount, List.countP_append, List.countP_cons, isBoundaryB]
  refine ⟨?_, ?_, by simp, by simp⟩
  · rw [hann, List.pairwise_append]
    refine ⟨hP, by simp [segRel], ?_⟩
    intro a ha b hbm
    simp only [List.mem_singleton] at hbm
    subst hbm
    intro hseg hsa _
    rcases hcond with hnone | ⟨m, hm, hlt⟩
    · have := hB hnone rfl a ha (by simpa using hseg) 
      rw [this] at hsa
      exact absurd hsa (by simp)
    · have := hA m hm a ha (by simpa using hseg) hsa
      simp only
      omega
  · intro m2 hm2 p hp hpseg hpsnap
    simp only [Option.some.injEq] at hm2
    subst hm2
    rw [hann] at hp
    rw [hbc] at hpseg
    rcases List.mem_append.mp hp with hp | hp
    · rcases hcond with hnone | ⟨m, hm, hlt⟩
      · have := hB hnone rfl p hp hpseg
        rw [this] at hpsnap
        exact absurd hpsnap (by simp)
      · have := hA m hm p hp hpseg hpsnap
        omega
    · simp only [List.mem_singleton] at hp
      subst hp
      simp

theorem killBranch_cases (live : Bool) (env : Env) (s : St) :
    killBranch live env s = ⟨s, [], true⟩
    ∨ ((killBranch live env s).evs = [⟨.killSwitchExit, minuteKey env.now⟩]
        ∧ (killBranch live env s).st.position_open = false
        ∧ (killBranch live env s).st.last_snapshot_min = none) := by
  unfold killBranch
  repeat' split
  all_goals first | exact Or.inl rfl | exact Or.inr ⟨rfl, rfl, rfl⟩

theorem entryStep_cases (live : Bool) (env : Env) (s : St) (atm : ℤ) (dist : ℚ) :
    (∃ s', entryStep live env s atm dist = .inl ⟨s', [], true⟩
        ∧ s'.position_open = s.position_open
        ∧ s'.last_snapshot_min = s.last_snapshot_min)
    ∨ entryStep live env s atm dist = .inr (s, [])
    ∨ (∃ s', entryStep live env s atm dist = .inr (s', [⟨.entry, minuteKey env.now⟩])
        ∧ s'.position_open = true ∧ s'.last_snapshot_min = none) := by
  unfold entryStep
  repeat' split
  all_goals first
    | exact Or.inl ⟨_, rfl, rfl, rfl⟩
    | exact Or.inr (Or.inl rfl)
    | exact Or.inr (Or.inr ⟨_, rfl, rfl, rfl⟩)

theorem rollStep_cases (live : Bool) (env : Env) (st : St) (na : ℤ) (ce pe : ℚ)
    (evs : List Ev) :
    ((rollStep live env st na ce pe evs).evs = evs
        ∧ (rollStep live env st na ce pe evs).st.position_open = st.position_open
        ∧ (rollStep live env st na ce pe evs).st.last_snapshot_min = st.last_snapshot_min)
    ∨ ((rollStep live env st na ce pe evs).evs = evs ++ [⟨.rollExit, minuteKey env.now⟩]
        ∧ (rollStep live env st na ce pe evs).st.position_open = st.position_open
        ∧ (rollStep live env st na ce pe evs).st.last_snapshot_min = st.last_snapshot_min)
    ∨ ((rollStep live env st na ce pe evs).evs
          = (evs ++ [⟨.rollExit, minuteKey env.now⟩]) ++ [⟨.rollEntry, minuteKey env.now⟩]
        ∧ (rollStep live env st na ce pe evs).st.position_open = st.position_open
        ∧ (rollStep live env st na ce pe evs).st.last_snapshot_min = none) := by
  unfold rollStep
  repeat' split
  all_goals first
    | exact Or.inl ⟨rfl, rfl, rfl⟩
    | exact Or.inr (Or.inl ⟨rfl, rfl, rfl⟩)
    | exact Or.inr (Or.inr ⟨rfl, rfl, rfl⟩)

theorem finalStep_cases (live : Bool) (env : Env) (st : St) (u : ℚ) (evs : List Ev) :
    (finalStep live env st u evs = ⟨st, evs, true⟩)
    ∨ ((finalStep live env st u evs).evs = evs ++ [⟨.finalExit, minuteKey env.now⟩]
        ∧ (finalStep live env st u evs).st.position_open = false
        ∧ (finalStep live env st u evs).st.last_snapshot_min = none) := by
  unfold finalStep
  repeat' split
  all_goals first | exact Or.inl rfl | exact Or.inr ⟨rfl, rfl, rfl⟩

theorem flagDue_true_cases (last : Option ℕ) (t : ℕ) (h : flagDue last t = true) :
    last = none ∨ ∃ m, last = some m ∧ m < t := by
  cases last with
  | none => exact Or.inl rfl
  | some m =>
    simp only [flagDue, decide_eq_true_eq] at h
    exact Or.inr ⟨m, rfl, h⟩

theorem manage_segInv (live : Bool) (env : Env) (s : St) (spot : ℚ)
    (evs0 evs : List Ev)
    (h : SegInv s.position_open s.last_snapshot_min (evs0 ++ evs)) :
    SegInv (manage live env s spot evs).st.position_open
      (manage live env s spot evs).st.last_snapshot_min
      (evs0 ++ (manage live env s spot evs).evs) := by
  by_cases hpo : s.position_open = true
  · unfold manage
    rw [hpo]
    simp only [if_true, ite_true]
    cases hc1 : s.ce_symbol with
    | none => simpa [hpo] using h
    | some c1 =>
    cases hm1 : env.mgCePx with
    | none => simpa [hpo] using h
    | some mgc =>
    cases hc2 : s.pe_symbol with
    | none => simpa [hpo] using h
    | some c2 =>
    cases hm2 : env.mgPePx with
    | none => simpa [hpo] using h
    | some mgp =>
    cases hc3 : s.ce_entry with
    | none => simpa [hpo] using h
    | some ceE =>
    cases hc4 : s.pe_entry with
    | none => simpa [hpo] using h
    | some peE =>
    rw [hpo] at h
    by_cases hfire : flagDue s.last_snapshot_min (minuteKey env.now) = true
    · have h1 : SegInv true (some (minuteKey env.now))
          ((evs0 ++ evs) ++ [⟨.snapshot, minuteKey env.now⟩]) :=
        segInv_snoc_snap s.last_snapshot_min (evs0 ++ evs) (minuteKey env.now)
          (flagDue_true_cases _ _ hfire) h
      simp only [hfire, ite_true, if_true]
      split
      · rcases rollStep_cases live env
          {
            position_open := true, active_atm := s.active_atm, ce_symbol := some c1,
            pe_symbol := some c2, ce_entry := some ceE, pe_entry := some peE,
            realized_pnl := s.realized_pnl, last_snapshot_min := some (minuteKey env.now),
            last_flag_min := s.last_flag_min, trade_allowed := s.trade_allowed,
            atrSt := s.atrSt }
          (round_to_strike spot) ceE peE (evs ++ [⟨.snapshot, minuteKey env.now⟩]) with
          ⟨he, hp2, hl2⟩ | ⟨he, hp2, hl2⟩ | ⟨he, hp2, hl2⟩
        · rw [he, hp2, hl2]
          simpa [List.append_assoc] using h1
        · rw [he, hp2, hl2]
          have := segInv_snoc_plain true (some (minuteKey env.now))
            ((evs0 ++ evs) ++ [⟨.snapshot, minuteKey env.now⟩]) ⟨.rollExit, minuteKey env.now⟩
            (by simp [isSnapB]) (by simp [isBoundaryB]) h1
          simpa [List.append_assoc] using this
        · rw [he, hp2, hl2]
          have h2 := segInv_snoc_plain true (some (minuteKey env.now))
            ((evs0 ++ evs) ++ [⟨.snapshot, minuteKey env.now⟩]) ⟨.rollExit, minuteKey env.now⟩
            (by simp [isSnapB]) (by simp [isBoundaryB]) h1
          have h3 := segInv_snoc_bound true (some (minuteKey env.now))
            (((evs0 ++ evs) ++ [⟨.snapshot, minuteKey env.now⟩]) ++ [⟨.rollExit, minuteKey env.now⟩])
            ⟨.rollEntry, minuteKey env.now⟩ (by simp [isBoundaryB]) (by simp [isSnapB]) h2
          simpa [List.append_assoc] using h3
      · split
        · rcases finalStep_cases live env
            {
            position_open := true, active_atm := s.active_atm, ce_symbol := some c1,
            pe_symbol := some c2, ce_entry := some ceE, pe_entry := some peE,
            realized_pnl := s.realized_pnl, last_snapshot_min := some (minuteKey env.now),
            last_flag_min := s.last_flag_min, trade_allowed := s.trade_allowed,
            atrSt := s.atrSt }
            ((mgc - ceE + mgp - peE) * QTY_PER_LEG)
            (evs ++ [⟨.snapshot, minuteKey env.now⟩]) with heq | ⟨he, hp2, hl2⟩
          · rw [heq]
            simpa [List.append_assoc] using h1
          · rw [he, hp2, hl2]
            have := segInv_snoc_clear true (some (minuteKey env.now))
              ((evs0 ++ evs) ++ [⟨.snapshot, minuteKey env.now⟩]) ⟨.finalExit, minuteKey env.now⟩
              (by simp [isSnapB]) (by simp [isBoundaryB]) h1
            simpa [List.append_assoc] using this
        · simpa [List.append_assoc] using h1
    · simp only [Bool.not_eq_true] at hfire
      simp only [hfire, Bool.false_eq_true, if_false, ite_false]
      split
      · rcases rollStep_cases live env s (round_to_strike spot) ceE peE evs with
          ⟨he, hp2, hl2⟩ | ⟨he, hp2, hl2⟩ | ⟨he, hp2, hl2⟩
        · rw [he, hp2, hl2, hpo]
          exact h
        · rw [he, hp2, hl2, hpo]
          have := segInv_snoc_plain true s.last_snapshot_min (evs0 ++ evs)
            ⟨.rollExit, minuteKey env.now⟩ (by simp [isSnapB]) (by simp [isBoundaryB]) h
          simpa [List.append_assoc] using this
        · rw [he, hp2, hl2, hpo]
          have h2 := segInv_snoc_plain true s.last_snapshot_min (evs0 ++ evs)
            ⟨.rollExit, minuteKey env.now⟩ (by simp [isSnapB]) (by simp [isBoundaryB]) h
          have h3 := segInv_snoc_bound true s.last_snapshot_min
            ((evs0 ++ evs) ++ [⟨.rollExit, minuteKey env.now⟩]) ⟨.rollEntry, minuteKey env.now⟩
            (by simp [isBoundaryB]) (by simp [isSnapB]) h2
          simpa [List.append_assoc] using h3
      · split
        · rcases finalStep_cases live env s ((mgc - ceE + mgp - peE) * QTY_PER_LEG) evs with
            heq | ⟨he, hp2, hl2⟩
          · rw [heq, hpo]
            exact h
          · rw [he, hp2, hl2]
            have := segInv_snoc_clear true s.last_snapshot_min (evs0 ++ evs)
              ⟨.finalExit, minuteKey env.now⟩ (by simp [isSnapB]) (by simp [isBoundaryB]) h
            simpa [List.append_assoc] using this
        · rw [hpo]
          exact h
  · simp only [Bool.not_eq_true] at hpo
    simp only [manage, hpo, Bool.false_eq_true, if_false, ite_false]
    simpa [hpo] using h

theorem tick_segInv (live : Bool) (env : Env) (s : St) (evs : List Ev)
    (h : SegInv s.position_open s.last_snapshot_min evs) :
    SegInv (tick live env s).st.position_open (tick live env s).st.last_snapshot_min
      (evs ++ (tick live env s).evs) := by
  cases hm : in_market_hours env.now with
  | false => simpa [tick, hm] using h
  | true =>
    have hrf1 : (refreshFlag env s).position_open = s.position_open :=
      refreshFlag_position_open env s
    have hrf2 : (refreshFlag env s).last_snapshot_min = s.last_snapshot_min :=
      refreshFlag_last_snapshot_min env s
    cases hsp : env.spotPx with
    | none => simp only [tick, hm, hsp, if_true, ite_true]; simpa [hrf1, hrf2] using h
    | some spot =>
    cases hfu : env.futPx with
    | none => simp only [tick, hm, hsp, hfu, if_true, ite_true]; simpa [hrf1, hrf2] using h
    | some fut =>
    cases hvx : env.vixQ with
    | none => simp only [tick, hm, hsp, hfu, hvx, if_true, ite_true]; simpa [hrf1, hrf2] using h
    | some vx =>
    simp only [tick, hm, hsp, hfu, hvx, if_true, ite_true]
    split
    · -- kill branch
      rcases killBranch_cases live env
        { refreshFlag env s with
            atrSt := ((refreshFlag env s).atrSt.update (minuteKey env.now) (.fin fut)).1 }
        with heq | ⟨he, hp2, hl2⟩
      · rw [heq]
        simpa [hrf1, hrf2] using h
      · rw [he, hp2, hl2]
        exact segInv_snoc_clear s.position_open s.last_snapshot_min evs
          ⟨.killSwitchExit, minuteKey env.now⟩ (by simp [isSnapB]) (by simp [isBoundaryB]) h
    · -- entry then manage
      rcases entryStep_cases live env
        { refreshFlag env s with
            atrSt := ((refreshFlag env s).atrSt.update (minuteKey env.now) (.fin fut)).1 }
        (round_to_strike spot) (|spot - ((round_to_strike spot : ℤ) : ℚ)|)
        with ⟨s', heq, hp2, hl2⟩ | heq | ⟨s', heq, hp2, hl2⟩
      · rw [heq]
        simp only []
        rw [hp2, hl2]
        simpa [hrf1, hrf2] using h
      · rw [heq]
        have hpre : SegInv
            ({ refreshFlag env s with
                atrSt := ((refreshFlag env s).atrSt.update (minuteKey env.now) (.fin fut)).1
              } : St).position_open
            ({ refreshFlag env s with
                atrSt := ((refreshFlag env s).atrSt.update (minuteKey env.now) (.fin fut)).1
              } : St).last_snapshot_min
            (evs ++ []) := by
          simpa [hrf1, hrf2] using h
        have := manage_segInv live env
          { refreshFlag env s with
              atrSt := ((refreshFlag env s).atrSt.update (minuteKey env.now) (.fin fut)).1 }
          spot evs [] hpre
        exact this
      · rw [heq]
        have h1 : SegInv true none (evs ++ [⟨.entry, minuteKey env.now⟩]) :=
          segInv_snoc_bound s.position_open s.last_snapshot_min evs
            ⟨.entry, minuteKey env.now⟩ (by simp [isBoundaryB]) (by simp [isSnapB]) h
        have hpre : SegInv s'.position_open s'.last_snapshot_min
            (evs ++ [⟨.entry, minuteKey env.now⟩]) := by
          rw [hp2, hl2]; exact h1
        have := manage_segInv live env s' spot evs [⟨.entry, minuteKey env.now⟩] hpre
        exact this

theorem run_segInv (live : Bool) (envs : List Env) (s : St) (evs : List Ev)
    (h : SegInv s.position_open s.last_snapshot_min evs) :
    SegInv (run live s envs).1.position_open (run live s envs).1.last_snapshot_min
      (evs ++ (run live s envs).2) := by
  induction envs generalizing s evs with
  | nil => simpa [run] using h
  | cons e es ih =>
    have h1 := tick_segInv live e s evs h
    have h2 := ih (tick live e s).st (evs ++ (tick live e s).evs) h1
    simpa [run, List.append_assoc] using h2

/-- The amended per-minute dedup property of the logged rows: two SNAPSHOT
rows with no leg-set boundary (ENTRY or ROLL_ENTRY row) between them carry
strictly increasing minute keys. -/
def snapSep (evs : List Ev) : Prop :=
  ∀ (l₁ : List Ev) (e₁ : Ev) (l₂ : List Ev) (e₂ : Ev) (l₃ : List Ev),
    evs = l₁ ++ e₁ :: (l₂ ++ e₂ :: l₃) →
    e₁.kind = .snapshot → e₂.kind = .snapshot →
    (∀ b ∈ l₂, isBoundaryB b = false) →
    e₁.emin < e₂.emin

theorem pairwise_snapSep (evs : List Ev)
    (hP : List.Pairwise segRel (segAnnot 0 evs)) : snapSep evs := by
  intro l₁ e₁ l₂ e₂ l₃ hdec hs1 hs2 hnb
  subst hdec
  rw [segAnnot_append] at hP
  have hb1 : isBoundaryB e₁ = false := snap_not_boundary e₁ (by simp [isSnapB, hs1])
  have hbc2 : bcount l₂ = 0 := by
    simp only [bcount]
    rw [List.countP_eq_zero]
    intro b hb
    simp [hnb b hb]
  rw [show segAnnot (0 + bcount l₁) (e₁ :: (l₂ ++ e₂ :: l₃))
      = (e₁, 0 + bcount l₁)
        :: segAnnot (if isBoundaryB e₁ then 0 + bcount l₁ + 1 else 0 + bcount l₁)
            (l₂ ++ e₂ :: l₃) from rfl] at hP
  rw [hb1] at hP
  simp only [Bool.false_eq_true, if_false] at hP
  rw [segAnnot_append l₂ (e₂ :: l₃)] at hP
  rw [show segAnnot (0 + bcount l₁ + bcount l₂) (e₂ :: l₃)
      = (e₂, 0 + bcount l₁ + bcount l₂)
        :: segAnnot (if isBoundaryB e₂ then 0 + bcount l₁ + bcount l₂ + 1
            else 0 + bcount l₁ + bcount l₂) l₃ from rfl] at hP
  rcases (List.pairwise_append.mp hP) with ⟨-, hP2, -⟩
  rcases (List.pairwise_cons.mp hP2) with ⟨hrel, -⟩
  have hmem : (e₂, 0 + bcount l₁ + bcount l₂)
      ∈ segAnnot (0 + bcount l₁) l₂
        ++ (e₂, 0 + bcount l₁ + bcount l₂)
          :: segAnnot (if isBoundaryB e₂ then 0 + bcount l₁ + bcount l₂ + 1
              else 0 + bcount l₁ + bcount l₂) l₃ := by
    simp
  have := hrel _ hmem
  exact this (by simp [hbc2]) (by simp [isSnapB, hs1]) (by simp [isSnapB, hs2])

theorem rollStep_resets (live : Bool) (env : Env) (st : St) (na : ℤ) (ce pe : ℚ)
    (evs : List Ev)
    (h : (rollStep live env st na ce pe evs).errored = false) :
    (rollStep live env st na ce pe evs).st.last_snapshot_min = none
    ∧ (rollStep live env st na ce pe evs).evs
        = (evs ++ [⟨.rollExit, minuteKey env.now⟩]) ++ [⟨.rollEntry, minuteKey env.now⟩] := by
  revert h
  unfold rollStep
  repeat' split
  all_goals intro h
  all_goals first | exact ⟨rfl, rfl⟩ | exact absurd h (by simp)

theorem entryStep_resets (live : Bool) (env : Env) (s : St) (atm : ℤ) (dist : ℚ)
    (s' : St) (evs' : List Ev)
    (h : entryStep live env s atm dist = .inr (s', evs')) (hne : evs' ≠ []) :
    s'.last_snapshot_min = none := by
  rcases entryStep_cases live env s atm dist with ⟨s2, heq, -, -⟩ | heq | ⟨s2, heq, -, hl⟩
  · rw [heq] at h
    exact absurd h (by simp)
  · rw [heq] at h
    simp only [Sum.inr.injEq, Prod.mk.injEq] at h
    exact absurd h.2.symm hne
  · rw [heq] at h
    simp only [Sum.inr.injEq, Prod.mk.injEq] at h
    rw [← h.1]
    exact hl

theorem tick_snap_when_unset (live : Bool) (env : Env) (s : St)
    (hOk : envOk env) (hInv : stAllOrNone s) (hm : in_market_hours env.now = true)
    (hpo : s.position_open = true) (heff : effAllowed env s = true)
    (hlast : s.last_snapshot_min = none) :
    hasKind (tick live env s) .snapshot = true := by
  obtain ⟨h1, h2, h3, h4, h5, h6, h7, h8, h9, h10, h11, h12, h13, h14, h15,
    h16, h17, h18, h19, h20, h21, h22, h23, h24, h25, h26, h27, h28, h29⟩ := hOk
  obtain ⟨spot, hsp⟩ := Option.isSome_iff_exists.mp h1
  obtain ⟨fut, hfu⟩ := Option.isSome_iff_exists.mp h2
  obtain ⟨vx, hvx⟩ := Option.isSome_iff_exists.mp h3
  obtain ⟨mgc, hmgc⟩ := Option.isSome_iff_exists.mp h14
  obtain ⟨mgp, hmgp⟩ := Option.isSome_iff_exists.mp h15
  obtain ⟨rcx, hrcx⟩ := Option.isSome_iff_exists.mp h16
  obtain ⟨rpx, hrpx⟩ := Option.isSome_iff_exists.mp h17
  have hrs1 := unit_some _ h18
  have hrs2 := unit_some _ h19
  obtain ⟨rcS, hrcS⟩ := Option.isSome_iff_exists.mp h20
  obtain ⟨rpS, hrpS⟩ := Option.isSome_iff_exists.mp h21
  obtain ⟨rcP, hrcP⟩ := Option.isSome_iff_exists.mp h22
  obtain ⟨rpP, hrpP⟩ := Option.isSome_iff_exists.mp h23
  have hrb1 := unit_some _ h24
  have hrb2 := unit_some _ h25
  obtain ⟨fcx, hfcx⟩ := Option.isSome_iff_exists.mp h26
  obtain ⟨fpx, hfpx⟩ := Option.isSome_iff_exists.mp h27
  have hfs1 := unit_some _ h28
  have hfs2 := unit_some _ h29
  rcases hInv with ⟨-, ha, hcs', hps', hce', hpe'⟩ | ⟨hpo', -⟩
  · obtain ⟨atm0, hatm⟩ := Option.isSome_iff_exists.mp ha
    obtain ⟨cs, hcs⟩ := Option.isSome_iff_exists.mp hcs'
    obtain ⟨ps, hps⟩ := Option.isSome_iff_exists.mp hps'
    obtain ⟨ceE, hce⟩ := Option.isSome_iff_exists.mp hce'
    obtain ⟨peE, hpe⟩ := Option.isSome_iff_exists.mp hpe'
    simp only [tick, hm, hsp, hfu, hvx, refreshFlag_position_open,
      refreshFlag_trade_allowed, refreshFlag_ce_symbol, refreshFlag_pe_symbol,
      refreshFlag_ce_entry, refreshFlag_pe_entry, refreshFlag_last_snapshot_min,
      refreshFlag_active_atm, hpo, heff, hlast, Bool.not_true, Bool.and_false,
      Bool.false_and, Bool.and_true, Bool.true_and, ite_true, if_true,
      Bool.false_eq_true, if_false, entryStep, manage, hcs, hps, hce, hpe,
      hmgc, hmgp, flagDue]
    split_ifs <;>
      simp_all [hasKind, rollStep, finalStep, hrcx, hrpx, hrs1, hrs2, hrcS, hrpS,
        hrcP, hrpP, hrb1, hrb2, hfcx, hfpx, hfs1, hfs2, ite_self]
  · rw [hpo] at hpo'
    exact absurd hpo' (by simp)

/-- Per-tick environment of the roll tick used in the C9 run: re-entry fill
prices match the later management prices so no FINAL_EXIT interferes. -/
def envRollPx : Env :=
  { envAllOk with
      now := ⟨0, 10, 0, 20⟩, spotPx := some 22547,
      rlCePx := some 100, rlPePx := some 80 }

/-- Per-tick environment of the post-roll tick at 10:00:45 (same minute). -/
def envAfterRoll : Env := { envAllOk with now := ⟨0, 10, 0, 45⟩, spotPx := some 22551 }

/-- The state after the C9 run's first tick (ENTRY at 10:00:00). -/
def s9a : St :=
  { position_open := true, active_atm := some 22500,
    ce_symbol := some "NFO:NIFTY24C22500", pe_symbol := some "NFO:NIFTY24P22500",
    ce_entry := some 100, pe_entry := some 80, realized_pnl := 0,
    last_snapshot_min := some 600, last_flag_min := some 600, trade_allowed := true,
    atrSt := { period := 14, trs := [],
               bucket := some ⟨600, .fin 22500, .fin 22500, .fin 22500, .fin 22500⟩,
               atr := none } }

/-- The state after the C9 run's roll tick (ROLL to 22550 at 10:00:20). -/
def s9b : St :=
  { s9a with
      active_atm := some 22550, ce_symbol := some "NFO:NIFTY24C22550",
      pe_symbol := some "NFO:NIFTY24P22550", last_snapshot_min := none }

lemma tick9_1 : tick false envAllOk initState
    = ⟨s9a, [⟨.entry, 600⟩, ⟨.snapshot, 600⟩], false⟩ := by
  norm_num [tick, envAllOk, initState, AtrSt.init, AtrSt.update, refreshFlag,
    flagDue, read_trade_flag, minuteKey, todSec, in_market_hours, MARKET_START_SEC,
    MARKET_END_SEC, entryStep, manage, rollStep, finalStep, killBranch,
    round_to_strike, STRIKE_STEP, ENTRY_TOL, QTY_PER_LEG, PROFIT_TARGET, STOP_LOSS,
    ATR_PERIOD, s9a, s9b, envRollPx, envAfterRoll, PyFloat.pymax, PyFloat.pymin,
    PyFloat.blt, PyFloat.sub, PyFloat.pabs, PyFloat.sum, PyFloat.add, PyFloat.div,
    PyFloat.round2dp, lastN]

lemma tick9_2 : tick false envRollPx s9a
    = ⟨s9b, [⟨.rollExit, 600⟩, ⟨.rollEntry, 600⟩], false⟩ := by
  norm_num [tick, envAllOk, initState, AtrSt.init, AtrSt.update, refreshFlag,
    flagDue, read_trade_flag, minuteKey, todSec, in_market_hours, MARKET_START_SEC,
    MARKET_END_SEC, entryStep, manage, rollStep, finalStep, killBranch,
    round_to_strike, STRIKE_STEP, ENTRY_TOL, QTY_PER_LEG, PROFIT_TARGET, STOP_LOSS,
    ATR_PERIOD, s9a, s9b, envRollPx, envAfterRoll, PyFloat.pymax, PyFloat.pymin,
    PyFloat.blt, PyFloat.sub, PyFloat.pabs, PyFloat.sum, PyFloat.add, PyFloat.div,
    PyFloat.round2dp, lastN]

lemma tick9_3 : tick false envAfterRoll s9b
    = ⟨{ s9b with last_snapshot_min := some 600 }, [⟨.snapshot, 600⟩], false⟩ := by
  norm_num [tick, envAllOk, initState, AtrSt.init, AtrSt.update, refreshFlag,
    flagDue, read_trade_flag, minuteKey, todSec, in_market_hours, MARKET_START_SEC,
    MARKET_END_SEC, entryStep, manage, rollStep, finalStep, killBranch,
    round_to_strike, STRIKE_STEP, ENTRY_TOL, QTY_PER_LEG, PROFIT_TARGET, STOP_LOSS,
    ATR_PERIOD, s9a, s9b, envRollPx, envAfterRoll, PyFloat.pymax, PyFloat.pymin,
    PyFloat.blt, PyFloat.sub, PyFloat.pabs, PyFloat.sum, PyFloat.add, PyFloat.div,
    PyFloat.round2dp, lastN]

/-- Counterexample to claim C9: a three-tick run — ENTRY at 10:00:00, ROLL at
10:00:20, next managed tick at 10:00:45 — logs TWO SNAPSHOT rows in the same
wall-clock minute (key 600), because the ROLL resets the dedup key mid-minute.
"Exactly one SNAPSHOT per distinct wall-clock minute" is therefore false. -/
theorem c9_cex :
    (run false initState [envAllOk, envRollPx, envAfterRoll]).2
      = [⟨.entry, 600⟩, ⟨.snapshot, 600⟩, ⟨.rollExit, 600⟩, ⟨.rollEntry, 600⟩,
          ⟨.snapshot, 600⟩]
    ∧ ((run false initState [envAllOk, envRollPx, envAfterRoll]).2.countP
        (fun e => isSnapB e && (e.emin == 600))) = 2 := by
  have hrun : (run false initState [envAllOk, envRollPx, envAfterRoll]).2
      = [⟨.entry, 600⟩, ⟨.snapshot, 600⟩, ⟨.rollExit, 600⟩, ⟨.rollEntry, 600⟩,
          ⟨.snapshot, 600⟩] := by
    simp only [run, tick9_1, tick9_2, tick9_3]
    rfl
  exact ⟨hrun, by rw [hrun]; rfl⟩

/-- Claim C9 as amended: snapshots are deduplicated by minute-bucket key per
leg-set, not globally per minute. (1) In any run from the initial state, two
SNAPSHOT rows with no ENTRY/ROLL_ENTRY row between them have strictly
increasing minute keys — at most one snapshot per minute within a leg-set.
(2) A managed tick whose dedup key is unset always emits a SNAPSHOT
immediately. (3) A completed ROLL re-entry always resets the dedup key (and
logs ROLL_EXIT then ROLL_ENTRY), and (4) a completed ENTRY leaves the key
unset — so the first minute of a new leg-set is always captured, at the price
of a possible second SNAPSHOT in the same wall-clock minute. -/
theorem c9_snapshot_dedup :
    (∀ (live : Bool) (envs : List Env), snapSep (run live initState envs).2)
    ∧ (∀ (live : Bool) (env : Env) (s : St), envOk env → stAllOrNone s →
        in_market_hours env.now = true → s.position_open = true →
        effAllowed env s = true → s.last_snapshot_min = none →
        hasKind (tick live env s) .snapshot = true)
    ∧ (∀ (live : Bool) (env : Env) (st : St) (na : ℤ) (ce pe : ℚ) (evs : List Ev),
        (rollStep live env st na ce pe evs).errored = false →
        (rollStep live env st na ce pe evs).st.last_snapshot_min = none
        ∧ (rollStep live env st na ce pe evs).evs
            = (evs ++ [⟨.rollExit, minuteKey env.now⟩]) ++ [⟨.rollEntry, minuteKey env.now⟩])
    ∧ ∀ (live : Bool) (env : Env) (s : St) (atm : ℤ) (dist : ℚ) (s' : St)
        (evs' : List Ev),
        entryStep live env s atm dist = .inr (s', evs') → evs' ≠ [] →
        s'.last_snapshot_min = none := by
  refine ⟨?_, tick_snap_when_unset, rollStep_resets, entryStep_resets⟩
  intro live envs
  have h0 : SegInv initState.position_open initState.last_snapshot_min [] := by
    refine ⟨List.Pairwise.nil, ?_, ?_, fun _ => rfl⟩
    · intro m hm p hp
      simp [segAnnot] at hp
    · intro _ _ p hp
      simp [segAnnot] at hp
  have hrun := run_segInv live envs initState [] h0
  exact pairwise_snapSep _ (by simpa using hrun.1)

/-- An open position at 22500 whose snapshot dedup key is unset. -/
def sOpenNoSnap : St := { sOpen0 with last_snapshot_min := none }

/-- A second tick at 10:01:00 for the C9 witness run. -/
def envNextMin : Env := { envAllOk with now := ⟨0, 10, 1, 0⟩ }

/-- The state produced by a successful ENTRY from a flat, allowed state. -/
def sFlatAllowed : St := { initState with trade_allowed := true }

/-- The entry result state used in the C9 witness. -/
def sEntryRes : St :=
  { position_open := true, active_atm := some 22500,
    ce_symbol := some "NFO:NIFTY24C22500", pe_symbol := some "NFO:NIFTY24P22500",
    ce_entry := some 100, pe_entry := some 80, realized_pnl := 0,
    last_snapshot_min := none, last_flag_min := none, trade_allowed := true,
    atrSt := AtrSt.init 14 }

lemma tick9_w2 : tick false envNextMin s9a
    = ⟨{ s9a with
          last_snapshot_min := some 601, last_flag_min := some 601,
          atrSt := { period := 14, trs := [.fin 0],
                     bucket := some ⟨601, .fin 22500, .fin 22500, .fin 22500, .fin 22500⟩,
                     atr := none } },
        [⟨.snapshot, 601⟩], false⟩ := by
  norm_num [tick, envAllOk, envNextMin, initState, AtrSt.init, AtrSt.update, refreshFlag,
    flagDue, read_trade_flag, minuteKey, todSec, in_market_hours, MARKET_START_SEC,
    MARKET_END_SEC, entryStep, manage, rollStep, finalStep, killBranch,
    round_to_strike, STRIKE_STEP, ENTRY_TOL, QTY_PER_LEG, PROFIT_TARGET, STOP_LOSS,
    ATR_PERIOD, s9a, s9b, envRollPx, envAfterRoll, PyFloat.pymax, PyFloat.pymin,
    PyFloat.blt, PyFloat.sub, PyFloat.pabs, PyFloat.sum, PyFloat.add, PyFloat.div,
    PyFloat.round2dp, lastN]

/-- Witness for the amended claim C9 at concrete inputs. -/
theorem c9_snapshot_dedup_w :
    (600 : ℕ) < 601
    ∧ hasKind (tick false envAllOk sOpenNoSnap) .snapshot = true
    ∧ (rollStep false envAllOk sOpen0 22550 100 80 []).st.last_snapshot_min = none
    ∧ sEntryRes.last_snapshot_min = none := by
  refine ⟨?_, ?_, ?_, ?_⟩
  · exact c9_snapshot_dedup.1 false [envAllOk, envNextMin]
      [⟨.entry, 600⟩] ⟨.snapshot, 600⟩ [] ⟨.snapshot, 601⟩ []
      (by simp only [run, tick9_1, tick9_w2]; rfl) rfl rfl (by simp)
  · exact c9_snapshot_dedup.2.1 false envAllOk sOpenNoSnap (by decide) (by decide)
      rfl rfl rfl rfl
  · exact (c9_snapshot_dedup.2.2.1 false envAllOk sOpen0 22550 100 80 []
      (by with_unfolding_all rfl)).1
  · exact c9_snapshot_dedup.2.2.2 false envAllOk sFlatAllowed 22500 2 sEntryRes
      [⟨.entry, 600⟩] (by with_unfolding_all rfl) (by simp)
